import Mathlib

/-!
Verification of the Canopy SDK vault transaction-building and staking pipeline.

The TypeScript sources are shallowly embedded: JS bigint becomes Int, byte
arrays become List Nat, strings stay String (with List Char used where the
source manipulates characters), thrown CanopyError values become
Except CanopyError results, and remote calls (chain views, HTTP APIs) are
passed in as explicit environment records describing their outcomes.
-/

set_option maxRecDepth 4000

/-- Error codes of the SDK, from the CanopyErrorCode enumeration. -/
inductive CanopyErrorCode where
  | VAULT_PAUSED
  | NETWORK_ERROR
  | VAULT_NOT_FOUND
  | AMOUNT_TOO_SMALL
  | INVALID_VAULT_ADDRESS
  | INVALID_USER_ADDRESS
  | INVALID_TOKEN_ADDRESS
  | INVALID_POOL_ADDRESS
  | INVALID_INPUT
  | TRANSACTION_BUILD_FAILED
  | INSUFFICIENT_BALANCE
  | PACKET_GENERATION_FAILED
  | STAKING_POOLS_NOT_FOUND
  deriving DecidableEq, Repr

/-- A thrown CanopyError: human-readable message plus machine-readable code
(the details payload is diagnostic only and is not modelled). -/
structure CanopyError where
  message : String
  code : CanopyErrorCode
  deriving DecidableEq, Repr

/-- True when an Except value is an error (a thrown exception). -/
def isErr {ε α : Type} : Except ε α → Bool
  | .error _ => true
  | .ok _ => false

/-- AllocationMap from strategy-allocator: parallel strategies/amounts arrays. -/
structure AllocationMap where
  strategies : List String
  amounts : List Int
  deriving DecidableEq, Repr

/-- The reduce over allocation.amounts computing the allocated total in
StrategyAllocator.validateAllocation. -/
def allocatedTotal (allocation : AllocationMap) : Int :=
  allocation.amounts.foldl (fun sum amount => sum + amount) 0

/-- StrategyAllocator.validateAllocation: rejects empty allocations, length
mismatches, and totals further than totalAmount / 1000 (bigint division,
truncated) from totalAmount. -/
def validateAllocation (allocation : AllocationMap) (totalAmount : Int) :
    Except CanopyError Unit :=
  if allocation.strategies.length = 0 then
    .error ⟨"No strategies available for allocation", .TRANSACTION_BUILD_FAILED⟩
  else if allocation.strategies.length ≠ allocation.amounts.length then
    .error ⟨"Mismatched strategies and amounts", .TRANSACTION_BUILD_FAILED⟩
  else
    let tolerance := totalAmount.tdiv 1000
    let diff :=
      if allocatedTotal allocation > totalAmount then
        allocatedTotal allocation - totalAmount
      else totalAmount - allocatedTotal allocation
    if diff > tolerance then
      .error ⟨"Allocation total does not match deposit amount",
        .TRANSACTION_BUILD_FAILED⟩
    else
      .ok ()

/-- PacketData from packet-generator: a strategy address paired with raw
packet bytes (empty bytes mean "no packet"). -/
structure PacketData where
  strategy : String
  packet : List Nat
  deriving DecidableEq, Repr

/-- The allocation-guided branch of PacketGenerator.createPacketArrays: walk
the allocation strategies in order, look each strategy up in the generated
packets, and keep the pair only when the found packet is non-empty. -/
def createPacketArraysAlloc (packets : List PacketData) :
    List String → List String × List (List Nat)
  | [] => ([], [])
  | strategy :: rest =>
    let tail := createPacketArraysAlloc packets rest
    match packets.find? (fun p => p.strategy == strategy) with
    | some packet =>
      if packet.packet.length > 0 then
        (strategy :: tail.1, packet.packet :: tail.2)
      else tail
    | none => tail

/-- The no-allocation branch of PacketGenerator.createPacketArrays: keep the
generated packets in generation order, dropping empty ones. -/
def createPacketArraysNoAlloc : List PacketData → List String × List (List Nat)
  | [] => ([], [])
  | packet :: rest =>
    let tail := createPacketArraysNoAlloc rest
    if packet.packet.length > 0 then
      (packet.strategy :: tail.1, packet.packet :: tail.2)
    else tail

/-- PacketGenerator.createPacketArrays: returns empty arrays for an empty
packet list, otherwise dispatches on whether an allocation map was supplied. -/
def createPacketArrays (packets : List PacketData)
    (allocation : Option AllocationMap) : List String × List (List Nat) :=
  if packets.length = 0 then ([], [])
  else
    match allocation with
    | some alloc => createPacketArraysAlloc packets alloc.strategies
    | none => createPacketArraysNoAlloc packets

/-- Spec-side reading of C2 (for refinement comparison): the allocation
strategy sequence restricted to strategies that have some non-empty packet
anywhere in the packet list. -/
def claimedPacketStrategies (packets : List PacketData)
    (allocation : AllocationMap) : List String :=
  allocation.strategies.filter
    (fun strategy =>
      packets.any (fun p => p.strategy == strategy && p.packet.length > 0))

/-- The packet bytes createPacketArrays associates with a strategy: the bytes
of the first packet entry for it (empty when there is none). -/
def lookupPacketBytes (packets : List PacketData) (strategy : String) :
    List Nat :=
  match packets.find? (fun p => p.strategy == strategy) with
  | some p => p.packet
  | none => []

/-- Predicate: the first packet entry for the strategy exists and is
non-empty; this is the selection createPacketArrays actually performs. -/
def firstPacketNonEmpty (packets : List PacketData) (strategy : String) :
    Bool :=
  (lookupPacketBytes packets strategy).length > 0

/-- MovePosition configuration: lending API URL, the virtual-coin-type to
broker-name map (nameMap), and the asset-address to virtual-coin-type map
(virtualCoinMap). -/
structure MovePositionConfig where
  apiUrl : String
  nameMap : List (String × String)
  virtualCoinMap : List (String × String)
  deriving DecidableEq, Repr

/-- Outcomes of the remote calls PacketGenerator makes, passed in explicitly:
exactAmountView is the strategy withdrawal_amount_view chain call, and
remotePacket (broker name, strategy address, amount) is the whole
computePacketData interaction (portfolio fetch, packet POST, hex decode),
where an error models a thrown exception. -/
structure PacketEnv where
  exactAmountView : String → Int → Except Unit Int
  remotePacket : String → String → Int → Except Unit (List Nat)

/-- A packet environment in which every remote call fails. -/
def failingPacketEnv : PacketEnv where
  exactAmountView := fun _ _ => .error ()
  remotePacket := fun _ _ _ => .error ()

/-- The deposit/withdraw operation selector of generatePackets. -/
inductive PacketOp where
  | deposit
  | withdraw
  deriving DecidableEq, Repr

/-- First-match lookup in an association list, as a JS object/map access. -/
def lookupStr (m : List (String × String)) (key : String) : Option String :=
  (m.find? (fun kv => kv.1 == key)).map (fun kv => kv.2)

/-- PacketGenerator.getExactAmount: queries the withdrawal-amount view and
falls back to zero on a zero result or any failure. -/
def getExactAmount (env : PacketEnv) (strategyAddress : String)
    (amount : Int) : Int :=
  match env.exactAmountView strategyAddress amount with
  | .ok exactAmount => if exactAmount ≠ 0 then exactAmount else 0
  | .error _ => 0

/-- PacketGenerator.generateSinglePacket: empty packet when the MovePosition
configuration or broker mapping is missing or the resolved exact amount is
zero; otherwise the remote packet computation, whose failure propagates. -/
def generateSinglePacket (env : PacketEnv) (cfg : Option MovePositionConfig)
    (virtualCoinType : String) (strategyAddress : String) (amount : Int)
    (operation : PacketOp) : Except Unit (List Nat) :=
  match cfg with
  | none => .ok []
  | some config =>
    if config.apiUrl = "" then .ok []
    else
      match lookupStr config.nameMap virtualCoinType with
      | none => .ok []
      | some brokerName =>
        if brokerName = "" then .ok []
        else
          let exactAmount :=
            if operation = .withdraw then
              getExactAmount env strategyAddress amount
            else amount
          if exactAmount = 0 then .ok []
          else env.remotePacket brokerName strategyAddress exactAmount

/-- The per-strategy loop of PacketGenerator.generatePackets: skips falsy
(empty) strategies, emits an empty packet for zero amounts, and catches any
generateSinglePacket failure by substituting an empty packet. -/
def generatePacketsLoop (env : PacketEnv) (cfg : Option MovePositionConfig)
    (virtualCoinType : String) (operation : PacketOp) :
    List (String × Int) → List PacketData
  | [] => []
  | (strategy, amount) :: rest =>
    if strategy = "" then
      generatePacketsLoop env cfg virtualCoinType operation rest
    else if amount = 0 then
      ⟨strategy, []⟩ :: generatePacketsLoop env cfg virtualCoinType operation rest
    else
      match generateSinglePacket env cfg virtualCoinType strategy amount
          operation with
      | .ok packet =>
        ⟨strategy, packet⟩ ::
          generatePacketsLoop env cfg virtualCoinType operation rest
      | .error _ =>
        ⟨strategy, []⟩ ::
          generatePacketsLoop env cfg virtualCoinType operation rest

/-- PacketGenerator.generatePackets: length-mismatch guard, then the
per-strategy loop over the paired strategies/amounts. -/
def generatePackets (env : PacketEnv) (cfg : Option MovePositionConfig)
    (virtualCoinType : String) (strategies : List String)
    (amounts : List Int) (operation : PacketOp) :
    Except CanopyError (List PacketData) :=
  if strategies.length ≠ amounts.length then
    .error ⟨"Strategies and amounts arrays must have the same length",
      .PACKET_GENERATION_FAILED⟩
  else
    .ok (generatePacketsLoop env cfg virtualCoinType operation
      (strategies.zip amounts))

/-- The packet bytes a single (strategy, amount) pair contributes: empty for
zero amounts and for any generateSinglePacket failure, the generated bytes
otherwise. Used to state the element-wise contract of generatePackets. -/
def effectivePacket (env : PacketEnv) (cfg : Option MovePositionConfig)
    (virtualCoinType : String) (operation : PacketOp) (strategy : String)
    (amount : Int) : List Nat :=
  if amount = 0 then []
  else
    match generateSinglePacket env cfg virtualCoinType strategy amount
        operation with
    | .ok packet => packet
    | .error _ => []

/-- Well-known concrete address of the Echelon strategy implementation. -/
def ECHELON_SIMPLE_CONCRETE_ADDRESS : String :=
  "0x5d2b6a8b6478d86f62c9d3378e2a1fa265e85e69046946632d1fecae1940e851"

/-- Well-known concrete address of the Meridian strategy implementation. -/
def MERIDIAN_SIMPLE_CONCRETE_ADDRESS : String :=
  "0x133b23036f4ac78279fd4cc75b798ccfe2d3c002585049d7483230653b924b7d"

/-- Well-known concrete address of the LayerBank strategy implementation. -/
def LAYERBANK_SIMPLE_CONCRETE_ADDRESS : String :=
  "0xad1b34939f164ec6f6c0157da3a30bf9e5d408250978691872a79aa584852b85"

/-- Well-known concrete address of the MovePosition strategy implementation. -/
def MOVEPOSITION_SIMPLE_CONCRETE_ADDRESS : String :=
  "0xd7c7b27e361434e18d2410fd02f7140a8c10d174c9be0efd5324578d243953bd"

/-- Drops a literal "0x" prefix from a character list, as the
value.startsWith("0x") then slice(2) steps of address normalization. -/
def strip0x (value : List Char) : List Char :=
  match value with
  | c0 :: c1 :: rest => if c0 = '0' ∧ c1 = 'x' then rest else c0 :: c1 :: rest
  | short => short

/-- JS String.prototype.padStart on character lists: left-pad with the fill
character up to the target length. -/
def padStartChars (n : Nat) (fill : Char) (l : List Char) : List Char :=
  List.replicate (n - l.length) fill ++ l

/-- JS value.startsWith("0x") on a string, decided on its characters. -/
def startsWith0x (s : String) : Bool :=
  match s.data with
  | '0' :: 'x' :: _ => true
  | _ => false

/-- JS String.prototype.split("::") on character lists. -/
def splitCC (l : List Char) : List (List Char) :=
  match l with
  | [] => [[]]
  | ':' :: ':' :: rest => [] :: splitCC rest
  | c :: rest =>
    match splitCC rest with
    | head :: tail => (c :: head) :: tail
    | [] => [[c]]
termination_by l.length

/-- One strategy entry of a vault view; only the fields the verified
functions consult are carried (classification reads concreteAddress). -/
structure VaultBaseStrategyView where
  strategyAddress : String
  concreteAddress : String
  deriving DecidableEq, Repr

/-- A vault view; only the fields the verified functions consult are carried:
assetAddress (virtual-coin lookup), pairedCoinType (asset-representation
mode, optional), and the ordered strategies. -/
structure VaultView where
  assetAddress : String
  pairedCoinType : Option String
  strategies : List VaultBaseStrategyView
  deriving DecidableEq, Repr

namespace VaultDetector

/-- VaultDetector.normalizeAddress: strip "0x", lower-case, zero-pad to 64
hex characters (no "0x" re-prefix in this class). -/
def normalizeAddress (value : String) : String :=
  ⟨padStartChars 64 '0' ((strip0x value.data).map Char.toLower)⟩

/-- VaultDetector.isMovePosition: compares the first strategy concrete
address, normalized, with the MovePosition constant; false when there is no
first strategy or its concrete address is empty (falsy). -/
def isMovePosition (vault : VaultView) : Bool :=
  match vault.strategies with
  | [] => false
  | s :: _ =>
    if s.concreteAddress = "" then false
    else
      normalizeAddress s.concreteAddress ==
        normalizeAddress MOVEPOSITION_SIMPLE_CONCRETE_ADDRESS

/-- VaultDetector.isEchelon, same shape against the Echelon constant. -/
def isEchelon (vault : VaultView) : Bool :=
  match vault.strategies with
  | [] => false
  | s :: _ =>
    if s.concreteAddress = "" then false
    else
      normalizeAddress s.concreteAddress ==
        normalizeAddress ECHELON_SIMPLE_CONCRETE_ADDRESS

/-- VaultDetector.isLayerBank, same shape against the LayerBank constant. -/
def isLayerBank (vault : VaultView) : Bool :=
  match vault.strategies with
  | [] => false
  | s :: _ =>
    if s.concreteAddress = "" then false
    else
      normalizeAddress s.concreteAddress ==
        normalizeAddress LAYERBANK_SIMPLE_CONCRETE_ADDRESS

/-- VaultDetector.isMeridian, same shape against the Meridian constant. -/
def isMeridian (vault : VaultView) : Bool :=
  match vault.strategies with
  | [] => false
  | s :: _ =>
    if s.concreteAddress = "" then false
    else
      normalizeAddress s.concreteAddress ==
        normalizeAddress MERIDIAN_SIMPLE_CONCRETE_ADDRESS

/-- VaultDetector.getPlatformName: first match wins in the order
MovePosition, Echelon, LayerBank, Meridian; Satay is the default. -/
def getPlatformName (vault : VaultView) : String :=
  if isMovePosition vault then "MovePosition"
  else if isEchelon vault then "Echelon"
  else if isLayerBank vault then "LayerBank"
  else if isMeridian vault then "Meridian"
  else "Satay"

end VaultDetector

namespace TransactionBuilder

/-- TransactionBuilder.normalizeAddress: strip "0x", lower-case, zero-pad to
64 hex characters and re-prefix with "0x". -/
def normalizeAddress (value : String) : String :=
  ⟨'0' :: 'x' :: padStartChars 64 '0' ((strip0x value.data).map Char.toLower)⟩

/-- TransactionBuilder.isMovePosition, the builder copy of the check. -/
def isMovePosition (vault : VaultView) : Bool :=
  match vault.strategies with
  | [] => false
  | s :: _ =>
    if s.concreteAddress = "" then false
    else
      normalizeAddress s.concreteAddress ==
        normalizeAddress MOVEPOSITION_SIMPLE_CONCRETE_ADDRESS

/-- TransactionBuilder.isEchelon, the builder copy of the check. -/
def isEchelon (vault : VaultView) : Bool :=
  match vault.strategies with
  | [] => false
  | s :: _ =>
    if s.concreteAddress = "" then false
    else
      normalizeAddress s.concreteAddress ==
        normalizeAddress ECHELON_SIMPLE_CONCRETE_ADDRESS

/-- TransactionBuilder.isLayerBank, the builder copy of the check. -/
def isLayerBank (vault : VaultView) : Bool :=
  match vault.strategies with
  | [] => false
  | s :: _ =>
    if s.concreteAddress = "" then false
    else
      normalizeAddress s.concreteAddress ==
        normalizeAddress LAYERBANK_SIMPLE_CONCRETE_ADDRESS

/-- TransactionBuilder.isMeridian, the builder copy of the check. -/
def isMeridian (vault : VaultView) : Bool :=
  match vault.strategies with
  | [] => false
  | s :: _ =>
    if s.concreteAddress = "" then false
    else
      normalizeAddress s.concreteAddress ==
        normalizeAddress MERIDIAN_SIMPLE_CONCRETE_ADDRESS

/-- TransactionBuilder.normalizeTypeName: split on "::", drop a leading "@"
from the package segment, normalize it as an address, and reassemble; absent
segments render as the JS template-literal text "undefined". -/
def normalizeTypeName (value : String) : String :=
  let typeSplit := splitCC value.data
  let pkg : List Char := (typeSplit.get? 0).getD []
  let pkg : List Char :=
    match pkg with
    | '@' :: rest => rest
    | keep => keep
  normalizeAddress ⟨pkg⟩ ++ "::" ++
    (⟨(typeSplit.get? 1).getD "undefined".data⟩ : String) ++ "::" ++
    (⟨(typeSplit.get? 2).getD "undefined".data⟩ : String)

end TransactionBuilder

/-- One chain-encodable entry-function argument. -/
inductive TxArg where
  | s (value : String)
  | strList (value : List String)
  | bytes (value : List (List Nat))
  deriving DecidableEq, Repr

/-- InputEntryFunctionData: the payload contract returned to integrators. -/
structure InputEntryFunctionData where
  function : String
  typeArguments : List String
  functionArguments : List TxArg
  deriving DecidableEq, Repr

/-- The static staking-token to pool-addresses table from pool-mappings. -/
def STAKING_TOKEN_POOL_MAPPINGS : List (String × List String) :=
  [("0xe005014fbdd053aebf97b9a36dfeed790d337f571fa9d37690f527acb3015e02",
    ["0x7bf3653bf8b02d19b56916daaf959b95b4564ecd35d9abdb323d0690d5fdd0e7",
      "0xc1d2493f1ecc4ce35726fb0a48719752ce573f6aead45f35703193c021af3001"]),
   ("0x3d871f7475a839376b5567de59807db876203c628f71c75dbeefdb60139a10f8",
    ["0x12d57c3d4bb2b73726196d5e112406220773cba576577a47b4b45db57e578411"]),
   ("0x1d42fda1a3eac95ebcb4a35ba7f2c76c35855800c9fbf45a5255d146b5bac15",
    ["0xf7ce62c86bb4789e9f7b9a8effbe38e53aab6b28bd536ed5f0f898ae58a0df89",
      "0xff22e2f44b858bcfd6477ddf1e4ee561bbc4c2624eaa33c58a51eaecfc13087b"])]

/-- hasStaticPoolMapping: key membership in the static table. -/
def hasStaticPoolMapping (stakingToken : String) : Bool :=
  (STAKING_TOKEN_POOL_MAPPINGS.find? (fun kv => kv.1 == stakingToken)).isSome

/-- getStaticPoolMapping: static table lookup with empty-list default. -/
def getStaticPoolMapping (stakingToken : String) : List String :=
  match STAKING_TOKEN_POOL_MAPPINGS.find? (fun kv => kv.1 == stakingToken) with
  | some kv => kv.2
  | none => []

/-- Outcomes of the remote interactions of MultiRewardsClient, passed in
explicitly: whether a Sentio API key is configured, the pool ids the GraphQL
pool discovery yields per token (its own failures are absorbed to an empty
list by getStakingPoolsForToken), the per-pool isUserSubscribed chain calls
(error models a thrown exception), and whether the concurrent subscription
batch itself fails before individual results resolve. -/
structure StakeEnv where
  hasApiKey : Bool
  remotePoolIds : String → List String
  isUserSubscribed : String → String → Except Unit Bool
  subscriptionBatchFails : Bool

/-- The treatment of one candidate pool in getUnsubscribedPools: included
when the user is not subscribed, and also when its subscription check fails. -/
def treatedUnsubscribed (env : StakeEnv) (userAddress poolId : String) : Bool :=
  match env.isUserSubscribed userAddress poolId with
  | .ok isSubscribed => !isSubscribed
  | .error _ => true

/-- MultiRewardsClient.getUnsubscribedPools: concurrent per-pool subscription
checks (an individual failure counts as not subscribed), keeping the pools
the user is not subscribed to; a batch-level failure returns all pools. -/
def getUnsubscribedPools (env : StakeEnv) (userAddress : String)
    (poolIds : List String) : List String :=
  if poolIds.length = 0 then []
  else if env.subscriptionBatchFails then poolIds
  else
    ((poolIds.map (fun poolId =>
        match env.isUserSubscribed userAddress poolId with
        | .ok isSubscribed => (poolId, isSubscribed)
        | .error _ => (poolId, false))).filter
      (fun check => !check.2)).map (fun check => check.1)

/-- The prescriptive StakingPoolsNotFound message listing the three
remediation options. -/
def STAKING_POOLS_NOT_FOUND_OPTIONS_MESSAGE : String :=
  "No staking pools found for token. Options: 1) Provide poolAddresses parameter, 2) Ensure staking token is in static mapping, 3) Provide sentioApiKey for dynamic lookup"

/-- The pool-resolution fallback chain of stakeVaultShares: explicit pools,
then the static table, then remote discovery when an API key is configured,
else StakingPoolsNotFound with the three remediation options. -/
def resolvePoolIds (env : StakeEnv) (stakingToken : String)
    (poolAddresses : Option (List String)) :
    Except CanopyError (List String) :=
  if (poolAddresses.getD []).length > 0 then .ok (poolAddresses.getD [])
  else if hasStaticPoolMapping stakingToken then
    .ok (getStaticPoolMapping stakingToken)
  else if env.hasApiKey then .ok (env.remotePoolIds stakingToken)
  else
    .error ⟨STAKING_POOLS_NOT_FOUND_OPTIONS_MESSAGE, .STAKING_POOLS_NOT_FOUND⟩

/-- MultiRewardsClient.stakeVaultShares: input validation, pool resolution,
optional unsubscribed-pool filtering, then stake-and-subscribe versus plain
stake depending on whether pools to subscribe remain. The router and
multi-rewards module addresses come from ABI JSON files and are passed as
parameters. -/
def stakeVaultShares (routerAddr mrAddr : String) (env : StakeEnv)
    (stakingToken : String) (amount : Int) (userAddress : Option String)
    (poolAddresses : Option (List String)) :
    Except CanopyError InputEntryFunctionData :=
  if stakingToken = "" then
    .error ⟨"Staking token address is required and must be a string",
      .INVALID_VAULT_ADDRESS⟩
  else if ¬(startsWith0x stakingToken) then
    .error ⟨"Staking token address must be in valid format (0x...)",
      .INVALID_VAULT_ADDRESS⟩
  else if amount ≤ 0 then
    .error ⟨"Stake amount must be greater than zero", .AMOUNT_TOO_SMALL⟩
  else
    match resolvePoolIds env stakingToken poolAddresses with
    | .error e => .error e
    | .ok poolIds =>
      if poolIds.length = 0 then
        .error ⟨"No staking pools available for token after checking all sources",
          .STAKING_POOLS_NOT_FOUND⟩
      else
        let poolsToSubscribe :=
          match userAddress with
          | some u => getUnsubscribedPools env u poolIds
          | none => poolIds
        if poolsToSubscribe.length > 0 then
          .ok ⟨routerAddr ++ "::router::stake_and_subscribe_fa", [],
            [.s stakingToken, .s (toString amount),
              .strList poolsToSubscribe]⟩
        else
          .ok ⟨mrAddr ++ "::multi_rewards::stake", [],
            [.s stakingToken, .s (toString amount)]⟩

/-- JS String.prototype.includes("::") on the token identifier. -/
def doubleColonAux : List Char → Bool
  | ':' :: ':' :: _ => true
  | _ :: rest => doubleColonAux rest
  | [] => false

/-- Whether a token identifier contains the "::" module-path separator. -/
def containsDoubleColon (s : String) : Bool :=
  doubleColonAux s.data

/-- Hex-digit test for address validation. -/
def isHexDigitChar (c : Char) : Bool :=
  c.isDigit || ('a' ≤ c && c ≤ 'f') || ('A' ≤ c && c ≤ 'F')

/-- isValidAddress from utils/validation. The underlying external
AccountAddress.from parser is modelled by the contract the repository states
in the doc comment of isValidAddress: accepts addresses with or without a
"0x" prefix and validates hex content and length (1 to 64 hex characters);
non-hex input such as a coin-type path makes the parser throw, so the
function returns false for it. -/
def isValidAddress (address : String) : Bool :=
  if address = "" then false
  else
    let hexPart := strip0x address.data
    decide (1 ≤ hexPart.length) && decide (hexPart.length ≤ 64) &&
      hexPart.all isHexDigitChar

/-- MultiRewardsClient.withdraw: coin-type unstake via the router withdraw
entry point with the coin type as the sole type argument. -/
def mrWithdraw (routerAddr : String) (coinType : String) (amount : Int) :
    Except CanopyError InputEntryFunctionData :=
  if amount ≤ 0 then
    .error ⟨"Withdraw amount must be greater than zero", .AMOUNT_TOO_SMALL⟩
  else
    .ok ⟨routerAddr ++ "::router::withdraw", [coinType],
      [.s (toString amount)]⟩

/-- MultiRewardsClient.withdrawFa: fungible-asset unstake via the
multi_rewards withdraw entry point. -/
def mrWithdrawFa (mrAddr : String) (stakingToken : String) (amount : Int) :
    Except CanopyError InputEntryFunctionData :=
  if stakingToken = "" ∨ ¬(startsWith0x stakingToken) then
    .error ⟨"Staking token address is required and must be in valid format (0x...)",
      .INVALID_VAULT_ADDRESS⟩
  else if amount ≤ 0 then
    .error ⟨"Amount must be a positive bigint", .AMOUNT_TOO_SMALL⟩
  else
    .ok ⟨mrAddr ++ "::multi_rewards::withdraw", [],
      [.s stakingToken, .s (toString amount)]⟩

namespace CanopyClient

/-- CanopyClient.unstake (the validation.ts client): eager validateAddress
and validateAmount, then syntactic dispatch on the "::" separator between
the coin-type and fungible-asset withdraw paths. -/
def unstake (routerAddr mrAddr : String) (tokenAddress : String)
    (amount : Int) : Except CanopyError InputEntryFunctionData :=
  if tokenAddress = "" then
    .error ⟨"Token address is required and must be a string",
      .INVALID_TOKEN_ADDRESS⟩
  else if ¬isValidAddress tokenAddress then
    .error ⟨"Invalid token address format", .INVALID_TOKEN_ADDRESS⟩
  else if amount ≤ 0 then
    .error ⟨"unstake amount must be greater than zero", .AMOUNT_TOO_SMALL⟩
  else if containsDoubleColon tokenAddress then
    mrWithdraw routerAddr tokenAddress amount
  else
    mrWithdrawFa mrAddr tokenAddress amount

end CanopyClient

namespace CanopyClientAlt

/-- CanopyClient.unstake (the duplicate client whose validateInputs only
checks for a non-empty string starting with "0x" and a positive amount),
then the same syntactic dispatch on the "::" separator. -/
def unstake (routerAddr mrAddr : String) (tokenAddress : String)
    (amount : Int) : Except CanopyError InputEntryFunctionData :=
  if tokenAddress = "" then
    .error ⟨"Vault address is required and must be a string",
      .INVALID_VAULT_ADDRESS⟩
  else if ¬(startsWith0x tokenAddress) then
    .error ⟨"Vault address must start with 0x", .INVALID_VAULT_ADDRESS⟩
  else if amount ≤ 0 then
    .error ⟨"unstake amount must be greater than zero", .AMOUNT_TOO_SMALL⟩
  else if containsDoubleColon tokenAddress then
    mrWithdraw routerAddr tokenAddress amount
  else
    mrWithdrawFa mrAddr tokenAddress amount

end CanopyClientAlt

/-- Default minimum shares out for deposits. -/
def DEFAULT_MIN_SHARES_OUT : String := "0"

/-- Default maxLoss for withdrawals ("100"). -/
def DEFAULT_MAX_LOSS : String := "100"

/-- Default minimum-amount-out floor for withdrawals. -/
def WITHDRAW_MIN_AMOUNT_OUT : String := "0"

/-- Stricter minimum-amount-out floor used on the non-Echelon withdraw path. -/
def WITHDRAW_MIN_AMOUNT_OUT_MOVEPOSITION : String := "100"

/-- Fixed empty strategy list for the Echelon entry points. -/
def EMPTY_STRATEGIES : List String := []

/-- Fixed empty packet list for the Echelon entry points. -/
def EMPTY_PACKETS : List (List Nat) := []

namespace TransactionBuilder

/-- TransactionBuilder.generatePacketsIfNeeded: no packets unless the vault
classifies as MovePosition; otherwise generate with the virtual coin type
looked up from the configured virtualCoinMap by normalized asset address. -/
def generatePacketsIfNeeded (penv : PacketEnv)
    (cfg : Option MovePositionConfig) (vault : VaultView)
    (strategies : List String) (amounts : List Int)
    (operation : PacketOp) : Except CanopyError (List PacketData) :=
  if ¬isMovePosition vault then .ok []
  else
    let virtualCoinType :=
      match cfg with
      | some config =>
        (lookupStr config.virtualCoinMap
          (normalizeAddress vault.assetAddress)).getD ""
      | none => ""
    generatePackets penv cfg virtualCoinType strategies amounts operation

/-- TransactionBuilder.createDepositPayload: the Echelon coin entry point
with doubled coin type argument and fixed empty strategy and packet lists,
or the fungible-asset entry point with allocation-ordered packet arrays. -/
def createDepositPayload (routerAddr : String) (vault : VaultView)
    (vaultAddress : String) (allocation : AllocationMap)
    (packets : List PacketData) (amount : Int) : InputEntryFunctionData :=
  if isEchelon vault then
    let coinTypeName := normalizeTypeName (vault.pairedCoinType.getD "")
    ⟨routerAddr ++ "::router::deposit_coin", [coinTypeName, coinTypeName],
      [.s vaultAddress, .strList EMPTY_STRATEGIES, .bytes EMPTY_PACKETS,
        .s (toString amount), .s DEFAULT_MIN_SHARES_OUT]⟩
  else
    let coinTypeName :=
      normalizeTypeName (vault.pairedCoinType.getD "0x1::aptos_coin::AptosCoin")
    let arrays := createPacketArrays packets (some allocation)
    ⟨routerAddr ++ "::router::deposit_fa_with_coin_type", [coinTypeName],
      [.s vaultAddress, .strList arrays.1, .bytes arrays.2,
        .s (toString amount), .s DEFAULT_MIN_SHARES_OUT]⟩

/-- TransactionBuilder.createWithdrawPayload: as the deposit counterpart but
with the extra maxLoss argument and a minimum-amount-out floor that is
WITHDRAW_MIN_AMOUNT_OUT on the Echelon path and
WITHDRAW_MIN_AMOUNT_OUT_MOVEPOSITION on every other path. -/
def createWithdrawPayload (routerAddr : String) (vault : VaultView)
    (vaultAddress : String) (allocationMap : AllocationMap)
    (packets : List PacketData) (shares : Int) (maxLoss : String) :
    InputEntryFunctionData :=
  if isEchelon vault then
    let coinTypeName := normalizeTypeName (vault.pairedCoinType.getD "")
    ⟨routerAddr ++ "::router::withdraw_coin", [coinTypeName, coinTypeName],
      [.s vaultAddress, .strList EMPTY_STRATEGIES, .bytes EMPTY_PACKETS,
        .s (toString shares), .s maxLoss, .s WITHDRAW_MIN_AMOUNT_OUT]⟩
  else
    let coinTypeName :=
      normalizeTypeName (vault.pairedCoinType.getD "0x1::aptos_coin::AptosCoin")
    let arrays := createPacketArrays packets (some allocationMap)
    ⟨routerAddr ++ "::router::withdraw_fa_with_coin_type", [coinTypeName],
      [.s vaultAddress, .strList arrays.1, .bytes arrays.2,
        .s (toString shares), .s maxLoss,
        .s WITHDRAW_MIN_AMOUNT_OUT_MOVEPOSITION]⟩

end TransactionBuilder

/-- Outcomes of the chain interactions the transaction builder depends on:
the vault_view call (with parsing), the deposit-allocation and
withdrawal-map view calls (with parsing), the vault is_paused view, the
packet-generation remote calls, and the MovePosition configuration. An error
models a raw failure before SDK wrapping. -/
structure BuilderEnv where
  vaultViewOutcome : Except Unit VaultView
  depositAllocationOutcome : Except Unit AllocationMap
  withdrawMapOutcome : Except Unit AllocationMap
  isPausedView : Except Unit Bool
  packetEnv : PacketEnv
  movepositionConfig : Option MovePositionConfig

/-- VaultDetector.getVaultDetails: wraps a raw vault_view failure into a
VaultNotFound error. -/
def getVaultDetails (env : BuilderEnv) : Except CanopyError VaultView :=
  match env.vaultViewOutcome with
  | .ok vault => .ok vault
  | .error _ => .error ⟨"Failed to get vault details", .VAULT_NOT_FOUND⟩

/-- StrategyAllocator.getOptimalAllocation: wraps a raw view or parse
failure into a TransactionBuildFailed error. -/
def getOptimalAllocation (env : BuilderEnv) : Except CanopyError AllocationMap :=
  match env.depositAllocationOutcome with
  | .ok allocation => .ok allocation
  | .error _ =>
    .error ⟨"Failed to get optimal allocation", .TRANSACTION_BUILD_FAILED⟩

/-- StrategyAllocator.getAllocationMap (withdrawal map): wraps a raw view or
parse failure into a TransactionBuildFailed error. -/
def getWithdrawalAllocationMap (env : BuilderEnv) :
    Except CanopyError AllocationMap :=
  match env.withdrawMapOutcome with
  | .ok allocationMap => .ok allocationMap
  | .error _ =>
    .error ⟨"Failed to get withdrawal map", .TRANSACTION_BUILD_FAILED⟩

/-- VaultDetector.checkVaultPaused: queries the is_paused view, wrapping a
failure into VaultNotFound. In the source it is reachable only from the
commented-out detectVaultType; neither payload builder calls it. -/
def checkVaultPaused (env : BuilderEnv) : Except CanopyError Bool :=
  match env.isPausedView with
  | .ok isPaused => .ok isPaused
  | .error _ => .error ⟨"Vault not found or inaccessible", .VAULT_NOT_FOUND⟩

/-- TransactionBuilder.buildDepositPayload: vault details, deposit
allocation, allocation validation, optional packet generation, then payload
assembly. The pause status in the environment is never consulted. -/
def buildDepositPayload (routerAddr : String) (env : BuilderEnv)
    (vaultAddress : String) (amount : Int) :
    Except CanopyError InputEntryFunctionData :=
  match getVaultDetails env with
  | .error e => .error e
  | .ok vault =>
    match getOptimalAllocation env with
    | .error e => .error e
    | .ok allocation =>
      match validateAllocation allocation amount with
      | .error e => .error e
      | .ok _ =>
        match TransactionBuilder.generatePacketsIfNeeded env.packetEnv
            env.movepositionConfig vault allocation.strategies
            allocation.amounts .deposit with
        | .error e => .error e
        | .ok packets =>
          .ok (TransactionBuilder.createDepositPayload routerAddr vault
            vaultAddress allocation packets amount)

/-- TransactionBuilder.buildWithdrawPayload: vault details, withdrawal map
(no validation), optional packet generation, then payload assembly with the
default maxLoss. The pause status in the environment is never consulted. -/
def buildWithdrawPayload (routerAddr : String) (env : BuilderEnv)
    (vaultAddress : String) (shares : Int) :
    Except CanopyError InputEntryFunctionData :=
  match getVaultDetails env with
  | .error e => .error e
  | .ok vault =>
    match getWithdrawalAllocationMap env with
    | .error e => .error e
    | .ok allocationMap =>
      match TransactionBuilder.generatePacketsIfNeeded env.packetEnv
          env.movepositionConfig vault allocationMap.strategies
          allocationMap.amounts .withdraw with
      | .error e => .error e
      | .ok packets =>
        .ok (TransactionBuilder.createWithdrawPayload routerAddr vault
          vaultAddress allocationMap packets shares DEFAULT_MAX_LOSS)

/-- The ten decimal digit characters. -/
def digitChars : List Char :=
  ['0', '1', '2', '3', '4', '5', '6', '7', '8', '9']

/-- A character list made of decimal digits only. -/
def isDigits (l : List Char) : Bool :=
  l.all (fun c => digitChars.contains c)

/-- Numeric value of a digit character. -/
def digitVal (c : Char) : Nat :=
  c.toNat - 48

/-- JS BigInt(s) on a string of decimal digits: fold the digits left to
right (BigInt of the empty string is zero). Only digit strings are in the
modelled domain; elsewhere JS would throw. -/
def digitsToNat (l : List Char) : Nat :=
  l.foldl (fun acc c => acc * 10 + digitVal c) 0

/-- Fuel-driven digit emitter behind natToDigits; fuel never runs out when
it starts at n + 1. -/
def natToDigitsAux : Nat → Nat → List Char → List Char
  | 0, _, acc => acc
  | fuel + 1, n, acc =>
    if n < 10 then Nat.digitChar n :: acc
    else natToDigitsAux fuel (n / 10) (Nat.digitChar (n % 10) :: acc)

/-- JS BigInt.prototype.toString on a non-negative value: its decimal digit
string. -/
def natToDigits (n : Nat) : List Char :=
  natToDigitsAux (n + 1) n []

/-- JS String.prototype.padEnd on character lists. -/
def padEndChars (n : Nat) (fill : Char) (l : List Char) : List Char :=
  l ++ List.replicate (n - l.length) fill

/-- The destructured amount.split(".") of scaleToDecimals: the part before
the first dot, and (when a dot exists) the part between the first and second
dots, as JS array destructuring of the split reads them. -/
def splitDecimal (l : List Char) : List Char × Option (List Char) :=
  (l.takeWhile (fun c => c ≠ '.'),
    match l.dropWhile (fun c => c ≠ '.') with
    | [] => none
    | _ :: after => some (after.takeWhile (fun c => c ≠ '.')))

/-- scaleToDecimals from the example utils: split at the decimal point, pad
or truncate the fraction to the decimal count, concatenate and read as an
integer. -/
def scaleToDecimals (amount : List Char) (decimals : Nat) : Nat :=
  let parts := splitDecimal amount
  let whole := parts.1
  let fraction := parts.2.getD []
  let paddedFraction := (padEndChars decimals '0' fraction).take decimals
  digitsToNat (whole ++ paddedFraction)

/-- JS fraction.replace of trailing zeros with nothing. -/
def stripTrailingZeros (l : List Char) : List Char :=
  (l.reverse.dropWhile (fun c => c = '0')).reverse

/-- scaleFromDecimals from the example utils: left-pad the decimal digit
string to decimals + 1, split whole and fraction at the insert position,
strip trailing fractional zeros, and emit the dot only when a fraction
remains. -/
def scaleFromDecimals (amount : Nat) (decimals : Nat) : List Char :=
  let str := padStartChars (decimals + 1) '0' (natToDigits amount)
  let insertPosition := str.length - decimals
  let wholeRaw := str.take insertPosition
  let whole := if wholeRaw = [] then ['0'] else wholeRaw
  let fraction := str.drop insertPosition
  let trimmedFraction := stripTrailingZeros fraction
  if trimmedFraction = [] then whole else whole ++ '.' :: trimmedFraction

/-- C1: validateAllocation throws a TransactionBuildFailed error exactly when
the allocation is empty, the parallel arrays mismatch, or the allocated total
deviates from totalAmount by more than totalAmount / 1000 (truncated). -/
theorem validateAllocation_throws_iff (a : AllocationMap) (t : Int)
    (_ht : 0 < t) :
    (∃ e, validateAllocation a t = .error e ∧
        e.code = .TRANSACTION_BUILD_FAILED) ↔
      (a.strategies = [] ∨ a.strategies.length ≠ a.amounts.length ∨
        |allocatedTotal a - t| > t.tdiv 1000) := by
  unfold validateAllocation
  rcases a with ⟨ss, amts⟩
  by_cases h0 : ss.length = 0
  · simp only [h0, if_pos rfl]
    have : ss = [] := List.length_eq_zero.mp h0
    simp [this]
  · simp only [if_neg h0]
    have hne : ss ≠ [] := fun h => h0 (by simp [h])
    by_cases h1 : ss.length ≠ amts.length
    · simp [h1, hne]
    · push_neg at h1
      simp only [h1, ne_eq, not_true_eq_false, if_neg, ite_false]
      have habs :
          (if allocatedTotal ⟨ss, amts⟩ > t then allocatedTotal ⟨ss, amts⟩ - t
            else t - allocatedTotal ⟨ss, amts⟩) =
            |allocatedTotal ⟨ss, amts⟩ - t| := by
        by_cases hc : allocatedTotal ⟨ss, amts⟩ > t
        · rw [if_pos hc, abs_of_pos (by omega)]
        · rw [if_neg hc, abs_of_nonpos (by omega)]
          omega
      rw [habs]
      by_cases h2 : |allocatedTotal ⟨ss, amts⟩ - t| > t.tdiv 1000
      · simp [h2, hne]
      · simp [h2, hne, h1]

/-- Witness for C1 at a concrete allocation and amount. -/
theorem validateAllocation_throws_iff_witness :
    0 < (1000 : Int) ∧
      ((∃ e, validateAllocation ⟨["0xa"], [999]⟩ 1000 = .error e ∧
          e.code = .TRANSACTION_BUILD_FAILED) ↔
        ((["0xa"] : List String) = [] ∨
          (["0xa"] : List String).length ≠ ([999] : List Int).length ∨
          |allocatedTotal ⟨["0xa"], [999]⟩ - 1000| > (1000 : Int).tdiv 1000)) :=
  ⟨by decide, validateAllocation_throws_iff ⟨["0xa"], [999]⟩ 1000 (by decide)⟩

/-- Helper: the allocation-guided packet-array walk is the filter of the
allocation strategies by first-packet-non-emptiness, with the packet bytes
looked up pointwise. -/
theorem createPacketArraysAlloc_eq (packets : List PacketData)
    (strategies : List String) :
    createPacketArraysAlloc packets strategies =
      (strategies.filter (firstPacketNonEmpty packets),
        (strategies.filter (firstPacketNonEmpty packets)).map
          (lookupPacketBytes packets)) := by
  induction strategies with
  | nil => simp [createPacketArraysAlloc]
  | cons s rest ih =>
    simp only [createPacketArraysAlloc, ih, List.filter_cons]
    cases hf : packets.find? (fun p => p.strategy == s) with
    | none =>
      simp [firstPacketNonEmpty, lookupPacketBytes, hf]
    | some p =>
      by_cases hp : p.packet.length > 0
      · simp [firstPacketNonEmpty, lookupPacketBytes, hf, hp]
      · simp [firstPacketNonEmpty, lookupPacketBytes, hf, hp]

/-- C2 counterexample: with a packet list holding an empty entry for a
strategy before a non-empty one, createPacketArrays drops the strategy even
though a non-empty packet for it exists in the packet list, so the output is
not the claimed restriction of the allocation order. -/
theorem createPacketArrays_find_first_counterexample :
    (createPacketArrays [⟨"0xs", []⟩, ⟨"0xs", [1]⟩]
        (some ⟨["0xs"], [1]⟩)).1 = [] ∧
      claimedPacketStrategies [⟨"0xs", []⟩, ⟨"0xs", [1]⟩]
        ⟨["0xs"], [1]⟩ = ["0xs"] := by
  constructor
  · rfl
  · rfl

/-- C2 (amended): with an allocation supplied, createPacketArrays returns the
allocation strategy sequence restricted, in order, to strategies whose first
packet entry in the packet list is non-empty, with the packet bytes aligned
element-wise to that restriction; strategies absent from the allocation never
appear. -/
theorem createPacketArrays_alloc_order (packets : List PacketData)
    (alloc : AllocationMap) :
    createPacketArrays packets (some alloc) =
      (alloc.strategies.filter (firstPacketNonEmpty packets),
        (alloc.strategies.filter (firstPacketNonEmpty packets)).map
          (lookupPacketBytes packets)) := by
  unfold createPacketArrays
  by_cases h0 : packets.length = 0
  · have hnil : packets = [] := List.length_eq_zero.mp h0
    subst hnil
    have hfilter : alloc.strategies.filter (firstPacketNonEmpty []) = [] := by
      apply List.filter_eq_nil_iff.mpr
      intro s _
      simp [firstPacketNonEmpty, lookupPacketBytes]
    simp [hfilter]
  · simp only [h0, if_neg, ite_false]
    exact createPacketArraysAlloc_eq packets alloc.strategies

/-- Helper: the generatePackets loop maps each (strategy, amount) pair with a
non-empty strategy to its strategy paired with its effective packet. -/
theorem generatePacketsLoop_eq_map (env : PacketEnv)
    (cfg : Option MovePositionConfig) (vct : String) (op : PacketOp)
    (l : List (String × Int)) (hne : ∀ sa ∈ l, sa.1 ≠ "") :
    generatePacketsLoop env cfg vct op l =
      l.map (fun sa => ⟨sa.1, effectivePacket env cfg vct op sa.1 sa.2⟩) := by
  induction l with
  | nil => simp [generatePacketsLoop]
  | cons sa rest ih =>
    rcases sa with ⟨s, a⟩
    have hs : s ≠ "" := hne ⟨s, a⟩ (by simp)
    have hrest : ∀ sa ∈ rest, sa.1 ≠ "" := fun x hx => hne x (by simp [hx])
    simp only [generatePacketsLoop, if_neg hs, List.map_cons, ih hrest]
    by_cases ha : a = 0
    · simp [ha, effectivePacket]
    · simp only [if_neg ha, effectivePacket, ha, ite_false]
      cases generateSinglePacket env cfg vct s a op with
      | ok packet => rfl
      | error e => rfl

/-- C3 counterexample: a falsy (empty-string) strategy is skipped, so the
returned packet array can be shorter than the strategies input even when the
strategies and amounts lists have equal length. -/
theorem generatePackets_skips_falsy_counterexample :
    generatePackets failingPacketEnv none "" [""] [1] .deposit = .ok [] ∧
      ([""] : List String).length = 1 := by
  constructor
  · rfl
  · rfl

/-- C3 (amended): for equal-length inputs whose strategies are all non-empty
strings, generatePackets succeeds with one PacketData per input position,
element i carrying strategies[i]; each element packet depends only on its own
(strategy, amount) pair, a per-strategy failure yields an empty byte sequence
for that strategy only, and no per-strategy failure aborts the batch. -/
theorem generatePackets_elementwise (env : PacketEnv)
    (cfg : Option MovePositionConfig) (vct : String) (op : PacketOp)
    (strategies : List String) (amounts : List Int)
    (hlen : strategies.length = amounts.length)
    (hne : ∀ s ∈ strategies, s ≠ "") :
    ∃ result,
      generatePackets env cfg vct strategies amounts op = .ok result ∧
        result.length = strategies.length ∧
        result = (strategies.zip amounts).map
          (fun sa => ⟨sa.1, effectivePacket env cfg vct op sa.1 sa.2⟩) := by
  refine ⟨generatePacketsLoop env cfg vct op (strategies.zip amounts), ?_, ?_, ?_⟩
  · unfold generatePackets
    simp [hlen]
  · rw [generatePacketsLoop_eq_map]
    · simp [List.length_zip, hlen]
    · intro sa hsa
      exact hne sa.1 (List.of_mem_zip hsa).1
  · rw [generatePacketsLoop_eq_map]
    intro sa hsa
    exact hne sa.1 (List.of_mem_zip hsa).1

/-- Witness for C3 at concrete inputs: one of two strategies fails remotely
and is mapped to an empty packet while the other is unaffected. -/
theorem generatePackets_elementwise_witness :
    (∀ s ∈ ["0xs1", "0xs2"], s ≠ "") ∧
      ∃ result,
        generatePackets failingPacketEnv
            (some ⟨"https://api", [("0xv", "broker")], []⟩) "0xv"
            ["0xs1", "0xs2"] [5, 7] .withdraw = .ok result ∧
          result.length = (["0xs1", "0xs2"] : List String).length ∧
          result = ((["0xs1", "0xs2"] : List String).zip [5, 7]).map
            (fun sa => ⟨sa.1,
              effectivePacket failingPacketEnv
                (some ⟨"https://api", [("0xv", "broker")], []⟩) "0xv" .withdraw
                sa.1 sa.2⟩) :=
  ⟨by decide,
    generatePackets_elementwise failingPacketEnv
      (some ⟨"https://api", [("0xv", "broker")], []⟩) "0xv" .withdraw
      ["0xs1", "0xs2"] [5, 7] (by decide) (by decide)⟩

/-- Helper: strip0x leaves a list alone when it does not begin with "0x". -/
theorem strip0x_eq_self (m : List Char)
    (h : ∀ a b t, m = a :: b :: t → ¬(a = '0' ∧ b = 'x')) :
    strip0x m = m := by
  match m with
  | [] => rfl
  | [a] => rfl
  | a :: b :: t =>
    simp only [strip0x]
    rw [if_neg (h a b t rfl)]

/-- Helper: normalization maps any mixed-case variant of a 64-character hex
string, with or without the "0x" prefix, to that string itself (VaultDetector
version, which emits no "0x" prefix). -/
theorem vd_normalizeAddress_variant (c m : List Char) (hlen : c.length = 64)
    (hx : c.get? 1 ≠ some 'x') (hm : m.map Char.toLower = c) :
    VaultDetector.normalizeAddress ⟨m⟩ = ⟨c⟩ ∧
      VaultDetector.normalizeAddress ⟨'0' :: 'x' :: m⟩ = ⟨c⟩ := by
  have hml : m.length = 64 := by
    have h1 := congrArg List.length hm
    simpa [hlen] using h1
  have hpad : padStartChars 64 '0' c = c := by
    simp [padStartChars, hlen]
  have hstrip : strip0x m = m := by
    apply strip0x_eq_self
    intro a b t hmt hab
    apply hx
    rcases hab with ⟨ha, hb⟩
    subst hmt
    subst hb
    rw [← hm]
    have hxl : Char.toLower 'x' = 'x' := by decide
    simp [hxl]
  constructor
  · show String.mk (padStartChars 64 '0'
        ((strip0x (String.data ⟨m⟩)).map Char.toLower)) = ⟨c⟩
    have hdata : (String.data ⟨m⟩) = m := rfl
    rw [hdata, hstrip, hm, hpad]
  · show String.mk (padStartChars 64 '0'
        ((strip0x (String.data ⟨'0' :: 'x' :: m⟩)).map Char.toLower)) = ⟨c⟩
    have hdata : (String.data ⟨'0' :: 'x' :: m⟩) = '0' :: 'x' :: m := rfl
    rw [hdata]
    have hstrip2 : strip0x ('0' :: 'x' :: m) = m := by
      simp [strip0x]
    rw [hstrip2, hm, hpad]

/-- Helper: on a vault whose first strategy has a non-empty concrete address,
getPlatformName is the first-match chain over normalized address equality. -/
theorem getPlatformName_cons (a : String) (p : Option String)
    (s0 : VaultBaseStrategyView) (rest : List VaultBaseStrategyView)
    (hne : s0.concreteAddress ≠ "") :
    VaultDetector.getPlatformName ⟨a, p, s0 :: rest⟩ =
      (if VaultDetector.normalizeAddress s0.concreteAddress =
          VaultDetector.normalizeAddress MOVEPOSITION_SIMPLE_CONCRETE_ADDRESS
        then "MovePosition"
        else if VaultDetector.normalizeAddress s0.concreteAddress =
            VaultDetector.normalizeAddress ECHELON_SIMPLE_CONCRETE_ADDRESS
          then "Echelon"
          else if VaultDetector.normalizeAddress s0.concreteAddress =
              VaultDetector.normalizeAddress LAYERBANK_SIMPLE_CONCRETE_ADDRESS
            then "LayerBank"
            else if VaultDetector.normalizeAddress s0.concreteAddress =
                VaultDetector.normalizeAddress MERIDIAN_SIMPLE_CONCRETE_ADDRESS
              then "Meridian"
              else "Satay") := by
  simp [VaultDetector.getPlatformName, VaultDetector.isMovePosition,
    VaultDetector.isEchelon, VaultDetector.isLayerBank,
    VaultDetector.isMeridian, hne]

/-- Helper: the builder and detector normalizers agree up to the re-attached
"0x" prefix, so their equality comparisons coincide. -/
theorem tb_vd_normalize_beq (x y : String) :
    (TransactionBuilder.normalizeAddress x ==
        TransactionBuilder.normalizeAddress y) =
      (VaultDetector.normalizeAddress x == VaultDetector.normalizeAddress y) := by
  rw [Bool.eq_iff_iff]
  simp only [beq_iff_eq]
  simp [TransactionBuilder.normalizeAddress, VaultDetector.normalizeAddress,
    String.ext_iff]

/-- C4: platform classification is total (one of the five platform names,
Satay when there are no strategies) and normalization-insensitive: a first
strategy whose concrete address is a known platform constant, written with or
without the "0x" prefix and in arbitrary mixed case, always classifies to
that platform; and the builder and detector copies of the per-platform
checks agree on every vault. -/
theorem platform_classification_insensitive :
    (∀ v : VaultView, VaultDetector.getPlatformName v ∈
        (["MovePosition", "Echelon", "LayerBank", "Meridian", "Satay"] :
          List String)) ∧
    (∀ v : VaultView, v.strategies = [] →
        VaultDetector.getPlatformName v = "Satay") ∧
    (∀ (a : String) (p : Option String) (s0 : VaultBaseStrategyView)
        (rest : List VaultBaseStrategyView) (m : List Char),
        m.map Char.toLower = strip0x MOVEPOSITION_SIMPLE_CONCRETE_ADDRESS.data →
        (s0.concreteAddress = ⟨m⟩ ∨ s0.concreteAddress = ⟨'0' :: 'x' :: m⟩) →
        VaultDetector.getPlatformName ⟨a, p, s0 :: rest⟩ = "MovePosition") ∧
    (∀ (a : String) (p : Option String) (s0 : VaultBaseStrategyView)
        (rest : List VaultBaseStrategyView) (m : List Char),
        m.map Char.toLower = strip0x ECHELON_SIMPLE_CONCRETE_ADDRESS.data →
        (s0.concreteAddress = ⟨m⟩ ∨ s0.concreteAddress = ⟨'0' :: 'x' :: m⟩) →
        VaultDetector.getPlatformName ⟨a, p, s0 :: rest⟩ = "Echelon") ∧
    (∀ (a : String) (p : Option String) (s0 : VaultBaseStrategyView)
        (rest : List VaultBaseStrategyView) (m : List Char),
        m.map Char.toLower = strip0x LAYERBANK_SIMPLE_CONCRETE_ADDRESS.data →
        (s0.concreteAddress = ⟨m⟩ ∨ s0.concreteAddress = ⟨'0' :: 'x' :: m⟩) →
        VaultDetector.getPlatformName ⟨a, p, s0 :: rest⟩ = "LayerBank") ∧
    (∀ (a : String) (p : Option String) (s0 : VaultBaseStrategyView)
        (rest : List VaultBaseStrategyView) (m : List Char),
        m.map Char.toLower = strip0x MERIDIAN_SIMPLE_CONCRETE_ADDRESS.data →
        (s0.concreteAddress = ⟨m⟩ ∨ s0.concreteAddress = ⟨'0' :: 'x' :: m⟩) →
        VaultDetector.getPlatformName ⟨a, p, s0 :: rest⟩ = "Meridian") ∧
    (∀ v : VaultView,
        TransactionBuilder.isMovePosition v = VaultDetector.isMovePosition v ∧
        TransactionBuilder.isEchelon v = VaultDetector.isEchelon v ∧
        TransactionBuilder.isLayerBank v = VaultDetector.isLayerBank v ∧
        TransactionBuilder.isMeridian v = VaultDetector.isMeridian v) := by
  have classify : ∀ (c : String) (a : String) (p : Option String)
      (s0 : VaultBaseStrategyView) (rest : List VaultBaseStrategyView)
      (m : List Char), (strip0x c.data).length = 64 →
      (strip0x c.data).get? 1 ≠ some 'x' →
      m.map Char.toLower = strip0x c.data →
      (s0.concreteAddress = ⟨m⟩ ∨ s0.concreteAddress = ⟨'0' :: 'x' :: m⟩) →
      VaultDetector.getPlatformName ⟨a, p, s0 :: rest⟩ =
        (if (⟨strip0x c.data⟩ : String) =
            VaultDetector.normalizeAddress MOVEPOSITION_SIMPLE_CONCRETE_ADDRESS
          then "MovePosition"
          else if (⟨strip0x c.data⟩ : String) =
              VaultDetector.normalizeAddress ECHELON_SIMPLE_CONCRETE_ADDRESS
            then "Echelon"
            else if (⟨strip0x c.data⟩ : String) =
                VaultDetector.normalizeAddress LAYERBANK_SIMPLE_CONCRETE_ADDRESS
              then "LayerBank"
              else if (⟨strip0x c.data⟩ : String) =
                  VaultDetector.normalizeAddress MERIDIAN_SIMPLE_CONCRETE_ADDRESS
                then "Meridian"
                else "Satay") := by
    intro c a p s0 rest m hlen hx1 hm hcase
    have hvar := vd_normalizeAddress_variant (strip0x c.data) m hlen hx1 hm
    have hml : m ≠ [] := by
      intro h
      rw [h] at hm
      have : (strip0x c.data).length = 0 := by
        rw [← hm]
        rfl
      omega
    have hne : s0.concreteAddress ≠ "" := by
      rcases hcase with h | h
      · rw [h]
        intro hq
        exact hml (congrArg String.data hq)
      · rw [h]
        intro hq
        simpa using congrArg String.data hq
    have hnorm : VaultDetector.normalizeAddress s0.concreteAddress =
        ⟨strip0x c.data⟩ := by
      rcases hcase with h | h
      · rw [h]
        exact hvar.1
      · rw [h]
        exact hvar.2
    rw [getPlatformName_cons a p s0 rest hne, hnorm]
  refine ⟨?_, ?_, ?_, ?_, ?_, ?_, ?_⟩
  · intro v
    unfold VaultDetector.getPlatformName
    split_ifs <;> simp
  · intro v h
    simp [VaultDetector.getPlatformName, VaultDetector.isMovePosition,
      VaultDetector.isEchelon, VaultDetector.isLayerBank,
      VaultDetector.isMeridian, h]
  · intro a p s0 rest m hm hcase
    rw [classify MOVEPOSITION_SIMPLE_CONCRETE_ADDRESS a p s0 rest m
      (by decide) (by decide) hm hcase]
    decide
  · intro a p s0 rest m hm hcase
    rw [classify ECHELON_SIMPLE_CONCRETE_ADDRESS a p s0 rest m
      (by decide) (by decide) hm hcase]
    decide
  · intro a p s0 rest m hm hcase
    rw [classify LAYERBANK_SIMPLE_CONCRETE_ADDRESS a p s0 rest m
      (by decide) (by decide) hm hcase]
    decide
  · intro a p s0 rest m hm hcase
    rw [classify MERIDIAN_SIMPLE_CONCRETE_ADDRESS a p s0 rest m
      (by decide) (by decide) hm hcase]
    decide
  · intro v
    refine ⟨?_, ?_, ?_, ?_⟩ <;>
      · cases hs : v.strategies with
        | nil =>
          simp [TransactionBuilder.isMovePosition,
            VaultDetector.isMovePosition, TransactionBuilder.isEchelon,
            VaultDetector.isEchelon, TransactionBuilder.isLayerBank,
            VaultDetector.isLayerBank, TransactionBuilder.isMeridian,
            VaultDetector.isMeridian, hs]
        | cons s rest =>
          by_cases hne : s.concreteAddress = "" <;>
            simp [TransactionBuilder.isMovePosition,
              VaultDetector.isMovePosition, TransactionBuilder.isEchelon,
              VaultDetector.isEchelon, TransactionBuilder.isLayerBank,
              VaultDetector.isLayerBank, TransactionBuilder.isMeridian,
              VaultDetector.isMeridian, hs, hne, tb_vd_normalize_beq]

/-- Witness for C4: an all-upper-case, "0x"-prefixed spelling of the
MovePosition constant still classifies as MovePosition. -/
theorem platform_classification_insensitive_witness :
    (("D7C7B27E361434E18D2410FD02F7140A8C10D174C9BE0EFD5324578D243953BD".data).map
        Char.toLower = strip0x MOVEPOSITION_SIMPLE_CONCRETE_ADDRESS.data) ∧
      VaultDetector.getPlatformName
        ⟨"", none, [⟨"0xs",
          ⟨'0' :: 'x' ::
            "D7C7B27E361434E18D2410FD02F7140A8C10D174C9BE0EFD5324578D243953BD".data⟩⟩]⟩ =
        "MovePosition" :=
  ⟨by decide,
    platform_classification_insensitive.2.2.1 "" none
      ⟨"0xs",
        ⟨'0' :: 'x' ::
          "D7C7B27E361434E18D2410FD02F7140A8C10D174C9BE0EFD5324578D243953BD".data⟩⟩
      []
      ("D7C7B27E361434E18D2410FD02F7140A8C10D174C9BE0EFD5324578D243953BD".data)
      (by decide) (Or.inr rfl)⟩

/-- Helper: every entry of the static pool table carries a non-empty pool
list, so a present static mapping never resolves to empty pools. -/
theorem static_mapping_nonempty (t : String)
    (h : hasStaticPoolMapping t = true) : getStaticPoolMapping t ≠ [] := by
  unfold hasStaticPoolMapping at h
  unfold getStaticPoolMapping
  cases hf : STAKING_TOKEN_POOL_MAPPINGS.find? (fun kv => kv.1 == t) with
  | none =>
    rw [hf] at h
    simp at h
  | some kv =>
    have hmem := List.mem_of_find?_eq_some hf
    simp only [STAKING_TOKEN_POOL_MAPPINGS, List.mem_cons,
      List.not_mem_nil, or_false] at hmem
    rcases hmem with h1 | h1 | h1 <;> simp [h1]

/-- Helper: the map-filter-map over subscription checks in
getUnsubscribedPools is the filter by treatedUnsubscribed. -/
theorem sub_checks_filter (env : StakeEnv) (u : String) (l : List String) :
    ((l.map (fun poolId =>
        match env.isUserSubscribed u poolId with
        | .ok isSubscribed => (poolId, isSubscribed)
        | .error _ => (poolId, false))).filter
      (fun check => !check.2)).map (fun check => check.1) =
      l.filter (treatedUnsubscribed env u) := by
  induction l with
  | nil => rfl
  | cons p rest ih =>
    simp only [List.map_cons]
    cases hp : env.isUserSubscribed u p with
    | ok b =>
      cases b <;> simp [List.filter_cons, treatedUnsubscribed, hp, ih]
    | error e => simp [List.filter_cons, treatedUnsubscribed, hp, ih]

/-- Helper: on a non-empty candidate list with a healthy batch,
getUnsubscribedPools is the filter by treatedUnsubscribed. -/
theorem getUnsubscribedPools_eq_filter (env : StakeEnv) (u : String)
    (poolIds : List String) (h : poolIds ≠ [])
    (hb : env.subscriptionBatchFails = false) :
    getUnsubscribedPools env u poolIds =
      poolIds.filter (treatedUnsubscribed env u) := by
  unfold getUnsubscribedPools
  rw [if_neg (by simp [h]), if_neg (by simp [hb])]
  exact sub_checks_filter env u poolIds

/-- C5: stakeVaultShares resolves pools by ordered fallback with first
success winning: non-empty explicit pools are used directly for any
environment; otherwise a present static-table entry is used (its pools are
never empty); otherwise, with an API key, remote discovery is used; with no
source at all it fails with StakingPoolsNotFound carrying the message that
enumerates the three remediation options; and a source that resolves to an
empty pool list also fails with StakingPoolsNotFound. -/
theorem stakeVaultShares_fallback_order (routerAddr mrAddr : String)
    (env : StakeEnv) (token : String) (amount : Int)
    (h0 : token ≠ "") (h1 : startsWith0x token = true) (ha : 0 < amount) :
    (∀ ps : List String, ps ≠ [] →
      stakeVaultShares routerAddr mrAddr env token amount none (some ps) =
        .ok ⟨routerAddr ++ "::router::stake_and_subscribe_fa", [],
          [.s token, .s (toString amount), .strList ps]⟩) ∧
    (hasStaticPoolMapping token = true →
      ∀ po : Option (List String), (po.getD []).length = 0 →
      stakeVaultShares routerAddr mrAddr env token amount none po =
        .ok ⟨routerAddr ++ "::router::stake_and_subscribe_fa", [],
          [.s token, .s (toString amount),
            .strList (getStaticPoolMapping token)]⟩) ∧
    (hasStaticPoolMapping token = false → env.hasApiKey = true →
      env.remotePoolIds token ≠ [] →
      stakeVaultShares routerAddr mrAddr env token amount none none =
        .ok ⟨routerAddr ++ "::router::stake_and_subscribe_fa", [],
          [.s token, .s (toString amount),
            .strList (env.remotePoolIds token)]⟩) ∧
    (hasStaticPoolMapping token = false → env.hasApiKey = true →
      env.remotePoolIds token = [] →
      ∃ e, stakeVaultShares routerAddr mrAddr env token amount none none =
          .error e ∧ e.code = .STAKING_POOLS_NOT_FOUND) ∧
    (hasStaticPoolMapping token = false → env.hasApiKey = false →
      stakeVaultShares routerAddr mrAddr env token amount none none =
        .error ⟨STAKING_POOLS_NOT_FOUND_OPTIONS_MESSAGE,
          .STAKING_POOLS_NOT_FOUND⟩) := by
  have ha' : ¬(amount ≤ 0) := not_le.mpr ha
  refine ⟨?_, ?_, ?_, ?_, ?_⟩
  · intro ps hps
    have hlen : 0 < ps.length := List.length_pos.mpr hps
    simp [stakeVaultShares, resolvePoolIds, h0, h1, ha', hlen,
      Nat.pos_iff_ne_zero.mp hlen]
  · intro hstatic po hpo
    have hne := static_mapping_nonempty token hstatic
    have hlen : 0 < (getStaticPoolMapping token).length :=
      List.length_pos.mpr hne
    simp [stakeVaultShares, resolvePoolIds, h0, h1, ha', hstatic, hpo, hlen,
      Nat.pos_iff_ne_zero.mp hlen]
  · intro hstatic hkey hremote
    have hlen : 0 < (env.remotePoolIds token).length :=
      List.length_pos.mpr hremote
    simp [stakeVaultShares, resolvePoolIds, h0, h1, ha', hstatic, hkey, hlen,
      Nat.pos_iff_ne_zero.mp hlen]
  · intro hstatic hkey hremote
    refine ⟨⟨"No staking pools available for token after checking all sources",
      .STAKING_POOLS_NOT_FOUND⟩, ?_, rfl⟩
    simp [stakeVaultShares, resolvePoolIds, h0, h1, ha', hstatic, hkey,
      hremote]
  · intro hstatic hkey
    simp [stakeVaultShares, resolvePoolIds, h0, h1, ha', hstatic, hkey]

/-- Witness for C5: a static-table token with no explicit pools and no API
key resolves to its static pools and builds the stake-and-subscribe call. -/
theorem stakeVaultShares_fallback_order_witness :
    (hasStaticPoolMapping
        "0xe005014fbdd053aebf97b9a36dfeed790d337f571fa9d37690f527acb3015e02" =
      true) ∧
      stakeVaultShares "0xr" "0xm" ⟨false, fun _ => [], fun _ _ => .error (), false⟩
          "0xe005014fbdd053aebf97b9a36dfeed790d337f571fa9d37690f527acb3015e02"
          1 none none =
        .ok ⟨"0xr" ++ "::router::stake_and_subscribe_fa", [],
          [.s "0xe005014fbdd053aebf97b9a36dfeed790d337f571fa9d37690f527acb3015e02",
            .s (toString (1 : Int)),
            .strList (getStaticPoolMapping
              "0xe005014fbdd053aebf97b9a36dfeed790d337f571fa9d37690f527acb3015e02")]⟩ :=
  ⟨by decide,
    (stakeVaultShares_fallback_order "0xr" "0xm"
        ⟨false, fun _ => [], fun _ _ => .error (), false⟩
        "0xe005014fbdd053aebf97b9a36dfeed790d337f571fa9d37690f527acb3015e02"
        1 (by decide) (by decide) (by decide)).2.1 (by decide) none rfl⟩

/-- C6: with a userAddress supplied, the built payload carries exactly the
candidate pools the user is not subscribed to (an individual check failure
counts as not subscribed, a batch failure keeps all candidates); a non-empty
filtered list yields the stake-and-subscribe entry point carrying it, an
empty one yields the plain stake entry point with no pool argument. -/
theorem stakeVaultShares_subscription_filter (routerAddr mrAddr : String)
    (env : StakeEnv) (token : String) (amount : Int) (u : String)
    (ps : List String) (h0 : token ≠ "") (h1 : startsWith0x token = true)
    (ha : 0 < amount) (hps : ps ≠ []) :
    stakeVaultShares routerAddr mrAddr env token amount (some u) (some ps) =
      (let pools :=
        if env.subscriptionBatchFails then ps
        else ps.filter (treatedUnsubscribed env u);
      if pools.length > 0 then
        .ok ⟨routerAddr ++ "::router::stake_and_subscribe_fa", [],
          [.s token, .s (toString amount), .strList pools]⟩
      else
        .ok ⟨mrAddr ++ "::multi_rewards::stake", [],
          [.s token, .s (toString amount)]⟩) := by
  have ha' : ¬(amount ≤ 0) := not_le.mpr ha
  have hlen : 0 < ps.length := List.length_pos.mpr hps
  by_cases hb : env.subscriptionBatchFails = true
  · have hresolved : getUnsubscribedPools env u ps = ps := by
      unfold getUnsubscribedPools
      rw [if_neg (by simp [hps]), if_pos hb]
    simp [stakeVaultShares, resolvePoolIds, h0, h1, ha', hlen,
      Nat.pos_iff_ne_zero.mp hlen, hresolved, hb]
  · have hb' : env.subscriptionBatchFails = false := by simpa using hb
    have hresolved := getUnsubscribedPools_eq_filter env u ps hps hb'
    simp [stakeVaultShares, resolvePoolIds, h0, h1, ha', hlen,
      Nat.pos_iff_ne_zero.mp hlen, hresolved, hb']

/-- Witness for C6: a user subscribed to two of three candidate pools gets a
stake-and-subscribe payload listing only the remaining pool. -/
theorem stakeVaultShares_subscription_filter_witness :
    (("0xtok" : String) ≠ "" ∧ startsWith0x "0xtok" = true ∧ (0 : Int) < 1 ∧
        (["0xp1", "0xp2", "0xp3"] : List String) ≠ []) ∧
      stakeVaultShares "0xr" "0xm"
          ⟨false, fun _ => [],
            fun _ poolId =>
              if poolId = "0xp1" then .ok true
              else if poolId = "0xp2" then .ok true
              else .ok false,
            false⟩
          "0xtok" 1 (some "0xu") (some ["0xp1", "0xp2", "0xp3"]) =
        .ok ⟨"0xr" ++ "::router::stake_and_subscribe_fa", [],
          [.s "0xtok", .s (toString (1 : Int)), .strList ["0xp3"]]⟩ :=
  ⟨⟨by decide, by decide, by decide, by decide⟩,
    (stakeVaultShares_subscription_filter "0xr" "0xm"
        ⟨false, fun _ => [],
          fun _ poolId =>
            if poolId = "0xp1" then .ok true
            else if poolId = "0xp2" then .ok true
            else .ok false,
          false⟩
        "0xtok" 1 "0xu" ["0xp1", "0xp2", "0xp3"]
        (by decide) (by decide) (by decide) (by decide)).trans (by rfl)⟩

/-- C7: unstake dispatches purely on the "::" separator. In the validateInputs
client this works as claimed: a coin type such as 0x1::aptos_coin::AptosCoin
routes to the router withdraw entry point with the coin type as type argument
and a "::"-free 0x token routes to the multi_rewards withdraw entry point,
neither throwing. In the validateAddress client, however, the eager address
validation rejects any coin-type token (the address parser refuses "::"), so
the coin path throws InvalidTokenAddress before dispatch ever happens. -/
theorem unstake_dispatch (routerAddr mrAddr : String) (amount : Int)
    (ha : 0 < amount) :
    (∃ e, CanopyClient.unstake routerAddr mrAddr
        "0x1::aptos_coin::AptosCoin" amount = .error e ∧
        e.code = .INVALID_TOKEN_ADDRESS) ∧
    (CanopyClientAlt.unstake routerAddr mrAddr
        "0x1::aptos_coin::AptosCoin" amount =
      .ok ⟨routerAddr ++ "::router::withdraw",
        ["0x1::aptos_coin::AptosCoin"], [.s (toString amount)]⟩) ∧
    (∀ t : String, t ≠ "" → startsWith0x t = true →
      containsDoubleColon t = false →
      CanopyClientAlt.unstake routerAddr mrAddr t amount =
        .ok ⟨mrAddr ++ "::multi_rewards::withdraw", [],
          [.s t, .s (toString amount)]⟩) ∧
    (∀ t : String, isValidAddress t = true → startsWith0x t = true →
      containsDoubleColon t = false →
      CanopyClient.unstake routerAddr mrAddr t amount =
        .ok ⟨mrAddr ++ "::multi_rewards::withdraw", [],
          [.s t, .s (toString amount)]⟩) := by
  have ha' : ¬(amount ≤ 0) := not_le.mpr ha
  refine ⟨?_, ?_, ?_, ?_⟩
  · refine ⟨⟨"Invalid token address format", .INVALID_TOKEN_ADDRESS⟩, ?_, rfl⟩
    have hinv : isValidAddress "0x1::aptos_coin::AptosCoin" = false := by
      decide
    simp [CanopyClient.unstake, hinv]
  · have hcc : containsDoubleColon "0x1::aptos_coin::AptosCoin" = true := by
      decide
    simp [CanopyClientAlt.unstake, mrWithdraw, ha', hcc,
      show startsWith0x "0x1::aptos_coin::AptosCoin" = true by decide]
  · intro t h0 h1 hcc
    have hfa : ¬(t = "" ∨ ¬startsWith0x t = true) := by simp [h0, h1]
    simp [CanopyClientAlt.unstake, mrWithdrawFa, h0, h1, hcc, ha', hfa]
  · intro t hval h1 hcc
    have h0 : t ≠ "" := by
      intro h
      rw [h] at hval
      exact absurd hval (by decide)
    have hfa : ¬(t = "" ∨ ¬startsWith0x t = true) := by simp [h0, h1]
    simp [CanopyClient.unstake, mrWithdrawFa, h0, h1, hcc, ha', hval, hfa]

/-- Witness for C7 at amount one and the fungible-asset token 0xabc123. -/
theorem unstake_dispatch_witness :
    ((0 : Int) < 1 ∧ isValidAddress "0xabc123" = true ∧
        startsWith0x "0xabc123" = true ∧
        containsDoubleColon "0xabc123" = false) ∧
      CanopyClient.unstake "0xr" "0xm" "0xabc123" 1 =
        .ok ⟨"0xm" ++ "::multi_rewards::withdraw", [],
          [.s "0xabc123", .s (toString (1 : Int))]⟩ :=
  ⟨⟨by decide, by decide, by decide, by decide⟩,
    (unstake_dispatch "0xr" "0xm" 1 (by decide)).2.2.2 "0xabc123"
      (by decide) (by decide) (by decide)⟩

/-- C8 counterexample: a LayerBank vault is not a platform requiring external
proof, yet its withdraw payload carries the stricter "100" floor rather than
the default "0" floor the claim prescribes for non-MovePosition platforms. -/
theorem withdraw_floor_counterexample :
    TransactionBuilder.isMovePosition
        ⟨"0xa", none, [⟨"0xs", LAYERBANK_SIMPLE_CONCRETE_ADDRESS⟩]⟩ = false ∧
      (TransactionBuilder.createWithdrawPayload "0xr"
          ⟨"0xa", none, [⟨"0xs", LAYERBANK_SIMPLE_CONCRETE_ADDRESS⟩]⟩
          "0xv" ⟨[], []⟩ [] 10 DEFAULT_MAX_LOSS).functionArguments.get? 5 =
        some (.s WITHDRAW_MIN_AMOUNT_OUT_MOVEPOSITION) ∧
      WITHDRAW_MIN_AMOUNT_OUT_MOVEPOSITION ≠ WITHDRAW_MIN_AMOUNT_OUT := by
  refine ⟨by decide, ?_, by decide⟩
  rfl

/-- C8 (amended): every successfully built withdraw payload carries the
default maxLoss "100" in argument position four and, in position five, the
default floor "0" exactly on the Echelon path and the stricter floor "100"
on every other platform (MovePosition, LayerBank, Meridian and the Satay
default alike). -/
theorem buildWithdrawPayload_floors (routerAddr : String) (env : BuilderEnv)
    (vaultAddress : String) (shares : Int) (p : InputEntryFunctionData)
    (h : buildWithdrawPayload routerAddr env vaultAddress shares = .ok p) :
    ∃ vault, env.vaultViewOutcome = .ok vault ∧
      p.functionArguments.get? 4 = some (.s DEFAULT_MAX_LOSS) ∧
      p.functionArguments.get? 5 =
        some (.s (if TransactionBuilder.isEchelon vault then
          WITHDRAW_MIN_AMOUNT_OUT else WITHDRAW_MIN_AMOUNT_OUT_MOVEPOSITION)) ∧
      DEFAULT_MAX_LOSS = "100" := by
  obtain ⟨vvo, dao, wmo, ipv, pe, mc⟩ := env
  cases vvo with
  | error u =>
    exact absurd h (by simp [buildWithdrawPayload, getVaultDetails])
  | ok vault =>
    refine ⟨vault, rfl, ?_⟩
    cases wmo with
    | error u =>
      exact absurd h
        (by simp [buildWithdrawPayload, getVaultDetails,
          getWithdrawalAllocationMap])
    | ok allocationMap =>
      simp only [buildWithdrawPayload, getVaultDetails,
        getWithdrawalAllocationMap] at h
      cases hp : TransactionBuilder.generatePacketsIfNeeded pe mc vault
          allocationMap.strategies allocationMap.amounts .withdraw with
      | error e1 =>
        rw [hp] at h
        exact absurd h (by simp)
      | ok packets =>
        rw [hp] at h
        injection h with h2
        subst h2
        cases he : TransactionBuilder.isEchelon vault <;>
          simp [TransactionBuilder.createWithdrawPayload, he] <;> rfl

/-- Witness for C8 at a vault with no strategies (Satay default platform). -/
theorem buildWithdrawPayload_floors_witness :
    (buildWithdrawPayload "0xr"
        ⟨.ok ⟨"0xa", none, []⟩, .ok ⟨[], []⟩, .ok ⟨[], []⟩, .ok false,
          failingPacketEnv, none⟩ "0xv" 10 =
      .ok ⟨"0xr" ++ "::router::withdraw_fa_with_coin_type",
        [TransactionBuilder.normalizeTypeName "0x1::aptos_coin::AptosCoin"],
        [.s "0xv", .strList [], .bytes [], .s (toString (10 : Int)),
          .s DEFAULT_MAX_LOSS, .s WITHDRAW_MIN_AMOUNT_OUT_MOVEPOSITION]⟩) ∧
      ∃ vault,
        (BuilderEnv.mk (.ok ⟨"0xa", none, []⟩) (.ok ⟨[], []⟩) (.ok ⟨[], []⟩)
            (.ok false) failingPacketEnv none).vaultViewOutcome = .ok vault ∧
        (InputEntryFunctionData.mk
            ("0xr" ++ "::router::withdraw_fa_with_coin_type")
            [TransactionBuilder.normalizeTypeName "0x1::aptos_coin::AptosCoin"]
            [.s "0xv", .strList [], .bytes [], .s (toString (10 : Int)),
              .s DEFAULT_MAX_LOSS,
              .s WITHDRAW_MIN_AMOUNT_OUT_MOVEPOSITION]).functionArguments.get? 4 =
          some (.s DEFAULT_MAX_LOSS) ∧
        (InputEntryFunctionData.mk
            ("0xr" ++ "::router::withdraw_fa_with_coin_type")
            [TransactionBuilder.normalizeTypeName "0x1::aptos_coin::AptosCoin"]
            [.s "0xv", .strList [], .bytes [], .s (toString (10 : Int)),
              .s DEFAULT_MAX_LOSS,
              .s WITHDRAW_MIN_AMOUNT_OUT_MOVEPOSITION]).functionArguments.get? 5 =
          some (.s (if TransactionBuilder.isEchelon vault then
            WITHDRAW_MIN_AMOUNT_OUT else WITHDRAW_MIN_AMOUNT_OUT_MOVEPOSITION)) ∧
        DEFAULT_MAX_LOSS = "100" :=
  ⟨by rfl,
    buildWithdrawPayload_floors "0xr"
      ⟨.ok ⟨"0xa", none, []⟩, .ok ⟨[], []⟩, .ok ⟨[], []⟩, .ok false,
        failingPacketEnv, none⟩ "0xv" 10
      ⟨"0xr" ++ "::router::withdraw_fa_with_coin_type",
        [TransactionBuilder.normalizeTypeName "0x1::aptos_coin::AptosCoin"],
        [.s "0xv", .strList [], .bytes [], .s (toString (10 : Int)),
          .s DEFAULT_MAX_LOSS, .s WITHDRAW_MIN_AMOUNT_OUT_MOVEPOSITION]⟩
      (by rfl)⟩

/-- Helper: every error validateAllocation throws is TransactionBuildFailed. -/
theorem validateAllocation_error_code (a : AllocationMap) (t : Int)
    (e : CanopyError) (h : validateAllocation a t = .error e) :
    e.code = .TRANSACTION_BUILD_FAILED := by
  simp only [validateAllocation] at h
  repeat' split at h
  all_goals
    first
      | (injection h with h2
         subst h2
         rfl)
      | exact absurd h (by simp)

/-- Helper: every error generatePackets throws is PacketGenerationFailed. -/
theorem generatePackets_error_code (env : PacketEnv)
    (cfg : Option MovePositionConfig) (vct : String)
    (strategies : List String) (amounts : List Int) (op : PacketOp)
    (e : CanopyError)
    (h : generatePackets env cfg vct strategies amounts op = .error e) :
    e.code = .PACKET_GENERATION_FAILED := by
  unfold generatePackets at h
  split at h
  · injection h with h2
    subst h2
    rfl
  · exact absurd h (by simp)

/-- Helper: every error generatePacketsIfNeeded throws is
PacketGenerationFailed. -/
theorem generatePacketsIfNeeded_error_code (penv : PacketEnv)
    (cfg : Option MovePositionConfig) (vault : VaultView)
    (strategies : List String) (amounts : List Int) (op : PacketOp)
    (e : CanopyError)
    (h : TransactionBuilder.generatePacketsIfNeeded penv cfg vault strategies
        amounts op = .error e) :
    e.code = .PACKET_GENERATION_FAILED := by
  unfold TransactionBuilder.generatePacketsIfNeeded at h
  split at h
  · exact absurd h (by simp)
  · exact generatePackets_error_code penv cfg _ strategies amounts op e h

/-- C10: the deposit and withdraw payload builders never consult the pause
status: two environments that agree on everything except the is_paused view
produce identical results (so a paused vault builds the very same payload as
an unpaused one), and no error either builder returns carries the
VaultPaused code. -/
theorem builders_ignore_pause :
    (∀ (routerAddr : String) (env env' : BuilderEnv) (vaultAddress : String)
        (amount : Int),
      env.vaultViewOutcome = env'.vaultViewOutcome →
      env.depositAllocationOutcome = env'.depositAllocationOutcome →
      env.withdrawMapOutcome = env'.withdrawMapOutcome →
      env.packetEnv = env'.packetEnv →
      env.movepositionConfig = env'.movepositionConfig →
      buildDepositPayload routerAddr env vaultAddress amount =
          buildDepositPayload routerAddr env' vaultAddress amount ∧
        buildWithdrawPayload routerAddr env vaultAddress amount =
          buildWithdrawPayload routerAddr env' vaultAddress amount) ∧
    (∀ (routerAddr : String) (env : BuilderEnv) (vaultAddress : String)
        (amount : Int) (e : CanopyError),
      buildDepositPayload routerAddr env vaultAddress amount = .error e →
      e.code ≠ .VAULT_PAUSED) ∧
    (∀ (routerAddr : String) (env : BuilderEnv) (vaultAddress : String)
        (shares : Int) (e : CanopyError),
      buildWithdrawPayload routerAddr env vaultAddress shares = .error e →
      e.code ≠ .VAULT_PAUSED) := by
  refine ⟨?_, ?_, ?_⟩
  · intro routerAddr env env' vaultAddress amount h1 h2 h3 h4 h5
    obtain ⟨vvo, dao, wmo, ipv, pe, mc⟩ := env
    obtain ⟨vvo', dao', wmo', ipv', pe', mc'⟩ := env'
    simp only at h1 h2 h3 h4 h5
    subst h1
    subst h2
    subst h3
    subst h4
    subst h5
    exact ⟨rfl, rfl⟩
  · intro routerAddr env vaultAddress amount e h
    obtain ⟨vvo, dao, wmo, ipv, pe, mc⟩ := env
    cases vvo with
    | error u =>
      simp only [buildDepositPayload, getVaultDetails] at h
      injection h with h2
      subst h2
      decide
    | ok vault =>
      cases dao with
      | error u =>
        simp only [buildDepositPayload, getVaultDetails,
          getOptimalAllocation] at h
        injection h with h2
        subst h2
        decide
      | ok allocation =>
        simp only [buildDepositPayload, getVaultDetails,
          getOptimalAllocation] at h
        cases hva : validateAllocation allocation amount with
        | error e1 =>
          rw [hva] at h
          injection h with h2
          rw [← h2, validateAllocation_error_code allocation amount e1 hva]
          decide
        | ok uu =>
          rw [hva] at h
          cases hp : TransactionBuilder.generatePacketsIfNeeded pe mc vault
              allocation.strategies allocation.amounts .deposit with
          | error e1 =>
            rw [hp] at h
            injection h with h2
            rw [← h2, generatePacketsIfNeeded_error_code pe mc vault
              allocation.strategies allocation.amounts .deposit e1 hp]
            decide
          | ok packets =>
            rw [hp] at h
            exact absurd h (by simp)
  · intro routerAddr env vaultAddress shares e h
    obtain ⟨vvo, dao, wmo, ipv, pe, mc⟩ := env
    cases vvo with
    | error u =>
      simp only [buildWithdrawPayload, getVaultDetails] at h
      injection h with h2
      subst h2
      decide
    | ok vault =>
      cases wmo with
      | error u =>
        simp only [buildWithdrawPayload, getVaultDetails,
          getWithdrawalAllocationMap] at h
        injection h with h2
        subst h2
        decide
      | ok allocationMap =>
        simp only [buildWithdrawPayload, getVaultDetails,
          getWithdrawalAllocationMap] at h
        cases hp : TransactionBuilder.generatePacketsIfNeeded pe mc vault
            allocationMap.strategies allocationMap.amounts .withdraw with
        | error e1 =>
          rw [hp] at h
          injection h with h2
          rw [← h2, generatePacketsIfNeeded_error_code pe mc vault
            allocationMap.strategies allocationMap.amounts .withdraw e1 hp]
          decide
        | ok packets =>
          rw [hp] at h
          exact absurd h (by simp)

/-- Witness for C10: an environment whose vault view fails yields a
VaultNotFound error, not VaultPaused, for the deposit builder. -/
theorem builders_ignore_pause_witness :
    (buildDepositPayload "0xr"
        ⟨.error (), .error (), .error (), .ok true, failingPacketEnv, none⟩
        "0xv" 5 =
      .error ⟨"Failed to get vault details", .VAULT_NOT_FOUND⟩) ∧
      (⟨"Failed to get vault details", .VAULT_NOT_FOUND⟩ :
          CanopyError).code ≠ .VAULT_PAUSED :=
  ⟨by rfl,
    builders_ignore_pause.2.1 "0xr"
      ⟨.error (), .error (), .error (), .ok true, failingPacketEnv, none⟩
      "0xv" 5 ⟨"Failed to get vault details", .VAULT_NOT_FOUND⟩ (by rfl)⟩

/-- Helper: a digit character has value below ten, is recovered by
Nat.digitChar from its value, is not a dot, and is zero-valued only for the
zero digit. -/
theorem digit_facts (c : Char) (h : digitChars.contains c = true) :
    digitVal c < 10 ∧ Nat.digitChar (digitVal c) = c ∧ c ≠ '.' ∧
      (digitVal c = 0 → c = '0') := by
  have hmem : c ∈ digitChars := by
    simpa using h
  simp only [digitChars, List.mem_cons, List.not_mem_nil, or_false] at hmem
  rcases hmem with h1 | h1 | h1 | h1 | h1 | h1 | h1 | h1 | h1 | h1 <;>
    subst h1 <;> exact ⟨by decide, by decide, by decide, by decide⟩

/-- Helper: Nat.digitChar of a value below ten is a digit character with
that value. -/
theorem digitChar_facts (m : Nat) (h : m < 10) :
    digitChars.contains (Nat.digitChar m) = true ∧
      digitVal (Nat.digitChar m) = m := by
  interval_cases m <;> exact ⟨by decide, by decide⟩

/-- Helper: the digit fold from an arbitrary accumulator. -/
theorem digitsToNat_foldl (l : List Char) (init : Nat) :
    l.foldl (fun acc c => acc * 10 + digitVal c) init =
      init * 10 ^ l.length + digitsToNat l := by
  induction l generalizing init with
  | nil => simp [digitsToNat]
  | cons c t ih =>
    simp only [List.foldl_cons, List.length_cons, digitsToNat]
    rw [ih (init * 10 + digitVal c), ih (0 * 10 + digitVal c)]
    ring

/-- Helper: the digit fold over a cons. -/
theorem digitsToNat_cons (c : Char) (t : List Char) :
    digitsToNat (c :: t) = digitVal c * 10 ^ t.length + digitsToNat t := by
  show (c :: t).foldl (fun acc c => acc * 10 + digitVal c) 0 = _
  simp only [List.foldl_cons]
  rw [digitsToNat_foldl]
  ring_nf

/-- Helper: the digit fold over an append. -/
theorem digitsToNat_append (l1 l2 : List Char) :
    digitsToNat (l1 ++ l2) =
      digitsToNat l1 * 10 ^ l2.length + digitsToNat l2 := by
  show (l1 ++ l2).foldl (fun acc c => acc * 10 + digitVal c) 0 = _
  rw [List.foldl_append]
  exact digitsToNat_foldl l2 (digitsToNat l1)

/-- Helper: a digit string of length n has value below ten to the n. -/
theorem digitsToNat_lt (l : List Char) (h : isDigits l = true) :
    digitsToNat l < 10 ^ l.length := by
  induction l with
  | nil => simp [digitsToNat]
  | cons c t ih =>
    simp only [isDigits, List.all_cons, Bool.and_eq_true] at h
    have hc := (digit_facts c h.1).1
    have ht := ih h.2
    rw [digitsToNat_cons]
    calc digitVal c * 10 ^ t.length + digitsToNat t
        < digitVal c * 10 ^ t.length + 10 ^ t.length := by omega
      _ = (digitVal c + 1) * 10 ^ t.length := by ring
      _ ≤ 10 * 10 ^ t.length := Nat.mul_le_mul_right _ (by omega)
      _ = 10 ^ (c :: t).length := by
          simp [List.length_cons]
          ring

/-- Helper: a digit string with a non-zero leading digit is at least ten to
the length of its tail. -/
theorem digitsToNat_head_lower (c : Char) (t : List Char)
    (hd : digitChars.contains c = true) (hc : c ≠ '0') :
    10 ^ t.length ≤ digitsToNat (c :: t) := by
  rw [digitsToNat_cons]
  have h1 : 1 ≤ digitVal c := by
    by_contra hlt
    push_neg at hlt
    exact hc ((digit_facts c hd).2.2.2 (by omega))
  calc 10 ^ t.length = 1 * 10 ^ t.length := by ring
    _ ≤ digitVal c * 10 ^ t.length := Nat.mul_le_mul_right _ h1
    _ ≤ digitVal c * 10 ^ t.length + digitsToNat t := Nat.le_add_right _ _

/-- Helper: equal-length digit strings with equal values are equal. -/
theorem digits_inj (l1 l2 : List Char) (h1 : isDigits l1 = true)
    (h2 : isDigits l2 = true) (hlen : l1.length = l2.length)
    (hval : digitsToNat l1 = digitsToNat l2) : l1 = l2 := by
  induction l1 generalizing l2 with
  | nil =>
    cases l2 with
    | nil => rfl
    | cons c2 t2 => simp at hlen
  | cons c t ih =>
    cases l2 with
    | nil => simp at hlen
    | cons c2 t2 =>
      simp only [List.length_cons] at hlen
      have hlen2 : t.length = t2.length := by omega
      simp only [isDigits, List.all_cons, Bool.and_eq_true] at h1 h2
      rw [digitsToNat_cons, digitsToNat_cons, hlen2] at hval
      have hb1 : digitsToNat t < 10 ^ t2.length := by
        rw [← hlen2]
        exact digitsToNat_lt t h1.2
      have hb2 : digitsToNat t2 < 10 ^ t2.length := digitsToNat_lt t2 h2.2
      have hq1 : (digitVal c * 10 ^ t2.length + digitsToNat t) /
          10 ^ t2.length = digitVal c := by
        rw [Nat.mul_comm, Nat.mul_add_div (Nat.pos_pow_of_pos _ (by omega)),
          Nat.div_eq_of_lt hb1]
        omega
      have hq2 : (digitVal c2 * 10 ^ t2.length + digitsToNat t2) /
          10 ^ t2.length = digitVal c2 := by
        rw [Nat.mul_comm, Nat.mul_add_div (Nat.pos_pow_of_pos _ (by omega)),
          Nat.div_eq_of_lt hb2]
        omega
      have hvc : digitVal c = digitVal c2 := by
        rw [← hq1, ← hq2, hval]
      have hvt : digitsToNat t = digitsToNat t2 := by
        have := hval
        rw [hvc] at this
        omega
      have hcc : c = c2 := by
        rw [← (digit_facts c h1.1).2.1, ← (digit_facts c2 h2.1).2.1, hvc]
      rw [hcc, ih t2 h1.2 h2.2 hlen2 hvt]

/-- Helper: every natural is below ten to itself. -/
theorem lt_pow_ten_self (n : Nat) : n < 10 ^ n :=
  Nat.lt_of_lt_of_le (Nat.lt_two_pow n)
    (Nat.pow_le_pow_left (by omega) n)

/-- Helper: the fuel-driven digit emitter appends its accumulator. -/
theorem natToDigitsAux_acc (fuel : Nat) :
    ∀ (n : Nat) (acc : List Char),
      natToDigitsAux fuel n acc = natToDigitsAux fuel n [] ++ acc := by
  induction fuel with
  | zero => intro n acc; simp [natToDigitsAux]
  | succ fuel ih =>
    intro n acc
    simp only [natToDigitsAux]
    by_cases h : n < 10
    · simp [h]
    · simp only [h, if_false, ite_false]
      rw [ih (n / 10) (Nat.digitChar (n % 10) :: acc),
        ih (n / 10) [Nat.digitChar (n % 10)]]
      simp

/-- Helper: the digit emitter ignores surplus fuel. -/
theorem natToDigitsAux_irrel : ∀ (fuel fuel' n : Nat), 1 ≤ fuel → 1 ≤ fuel' →
    n < 10 ^ fuel → n < 10 ^ fuel' →
    natToDigitsAux fuel n [] = natToDigitsAux fuel' n [] := by
  intro fuel
  induction fuel with
  | zero => intro fuel' n h; omega
  | succ fuel ih =>
    intro fuel' n _ hf' hn hn'
    obtain ⟨fuel'', rfl⟩ : ∃ k, fuel' = k + 1 := ⟨fuel' - 1, by omega⟩
    by_cases h : n < 10
    · simp [natToDigitsAux, h]
    · simp only [natToDigitsAux, h, if_false, ite_false]
      rw [natToDigitsAux_acc fuel, natToDigitsAux_acc fuel'']
      congr 1
      have hfuel1 : 1 ≤ fuel := by
        by_contra hz
        have : fuel = 0 := by omega
        subst this
        simp at hn
        omega
      have hfuel2 : 1 ≤ fuel'' := by
        by_contra hz
        have : fuel'' = 0 := by omega
        subst this
        simp at hn'
        omega
      apply ih fuel'' (n / 10) hfuel1 hfuel2
      · have : n < 10 ^ fuel * 10 := by
          rw [← pow_succ]
          exact hn
        omega
      · have : n < 10 ^ fuel'' * 10 := by
          rw [← pow_succ]
          exact hn'
        omega

/-- Helper: natToDigits below ten is the single digit character. -/
theorem natToDigits_eq_of_lt (n : Nat) (h : n < 10) :
    natToDigits n = [Nat.digitChar n] := by
  simp [natToDigits, natToDigitsAux, h]

/-- Helper: natToDigits from ten up splits off the last digit. -/
theorem natToDigits_eq_of_ge (n : Nat) (h : 10 ≤ n) :
    natToDigits n = natToDigits (n / 10) ++ [Nat.digitChar (n % 10)] := by
  unfold natToDigits
  have e1 : natToDigitsAux (n + 1) n [] =
      natToDigitsAux n (n / 10) [Nat.digitChar (n % 10)] := by
    simp [natToDigitsAux, Nat.not_lt.mpr h]
  rw [e1, natToDigitsAux_acc]
  congr 1
  apply natToDigitsAux_irrel
  · omega
  · omega
  · exact Nat.lt_of_le_of_lt (Nat.div_le_self n 10) (lt_pow_ten_self n)
  · exact Nat.lt_of_le_of_lt (Nat.div_le_self (n / 10) 10)
      (lt_pow_ten_self (n / 10 + 1) |> fun hx =>
        Nat.lt_of_le_of_lt (Nat.le_succ _) hx) |> fun _ =>
      Nat.lt_of_lt_of_le (lt_pow_ten_self (n / 10))
        (Nat.pow_le_pow_right (by omega) (by omega))

/-- Helper: natToDigits emits digit characters with the original value, is
non-empty, and has no leading zero for positive inputs. -/
theorem natToDigits_spec (n : Nat) :
    isDigits (natToDigits n) = true ∧ digitsToNat (natToDigits n) = n ∧
      1 ≤ (natToDigits n).length ∧
      (1 ≤ n → (natToDigits n).head? ≠ some '0') := by
  induction n using Nat.strong_induction_on with
  | _ n ih =>
    by_cases h : n < 10
    · rw [natToDigits_eq_of_lt n h]
      have hf := digitChar_facts n h
      refine ⟨?_, ?_, by simp, ?_⟩
      · simp only [isDigits, List.all_cons, List.all_nil, Bool.and_true]
        exact hf.1
      · rw [digitsToNat_cons]
        simp [digitsToNat, hf.2]
      · intro h1 habs
        simp only [List.head?_cons, Option.some.injEq] at habs
        have := hf.2
        rw [habs] at this
        simp [digitVal] at this
        omega
    · push_neg at h
      rw [natToDigits_eq_of_ge n (by omega)]
      have hdiv : n / 10 < n := by omega
      obtain ⟨ih1, ih2, ih3, ih4⟩ := ih (n / 10) hdiv
      have hmod : n % 10 < 10 := by omega
      have hf := digitChar_facts (n % 10) hmod
      refine ⟨?_, ?_, ?_, ?_⟩
      · simp only [isDigits, List.all_append, Bool.and_eq_true]
        refine ⟨ih1, ?_⟩
        simp only [List.all_cons, List.all_nil, Bool.and_true]
        exact hf.1
      · rw [digitsToNat_append, ih2]
        have hone : digitsToNat [Nat.digitChar (n % 10)] = n % 10 := by
          rw [digitsToNat_cons]
          simp [digitsToNat, hf.2]
        rw [hone]
        simp only [List.length_cons, List.length_nil, pow_one]
        omega
      · simp
      · intro _
        cases hnd : natToDigits (n / 10) with
        | nil =>
          rw [hnd] at ih3
          simp at ih3
        | cons a t =>
          have h4 := ih4 (by omega)
          rw [hnd] at h4
          simpa using h4

/-- Helper: a value below ten to the k has at most k digits (k positive). -/
theorem natToDigits_length_le (n k : Nat) (hk : 1 ≤ k) (h : n < 10 ^ k) :
    (natToDigits n).length ≤ k := by
  induction n using Nat.strong_induction_on generalizing k with
  | _ n ih =>
    by_cases hn : n < 10
    · rw [natToDigits_eq_of_lt n hn]
      simpa using hk
    · push_neg at hn
      rw [natToDigits_eq_of_ge n (by omega)]
      obtain ⟨j, rfl⟩ : ∃ j, k = j + 1 := ⟨k - 1, by omega⟩
      have hj : 1 ≤ j := by
        by_contra hz
        have : j = 0 := by omega
        subst this
        simp at h
        omega
      have hdivlt : n / 10 < 10 ^ j := by
        rw [pow_succ] at h
        omega
      have := ih (n / 10) (by omega) j hj hdivlt
      simp only [List.length_append, List.length_cons, List.length_nil]
      omega

/-- Helper: natToDigits inverts digitsToNat on canonical digit strings. -/
theorem natToDigits_roundtrip (w : List Char) (hw : isDigits w = true)
    (hne : w ≠ []) (hcanon : w.head? = some '0' → w = ['0']) :
    natToDigits (digitsToNat w) = w := by
  by_cases h0 : w = ['0']
  · subst h0
    decide
  · obtain ⟨c, t, rfl⟩ : ∃ c t, w = c :: t := by
      cases w with
      | nil => exact absurd rfl hne
      | cons c t => exact ⟨c, t, rfl⟩
    have hc0 : c ≠ '0' := by
      intro h
      exact h0 (hcanon (by simp [h]))
    simp only [isDigits, List.all_cons, Bool.and_eq_true] at hw
    have hwall : isDigits (c :: t) = true := by
      simp only [isDigits, List.all_cons, Bool.and_eq_true]
      exact ⟨hw.1, hw.2⟩
    have hlow : 10 ^ t.length ≤ digitsToNat (c :: t) :=
      digitsToNat_head_lower c t hw.1 hc0
    have hhigh : digitsToNat (c :: t) < 10 ^ (c :: t).length :=
      digitsToNat_lt (c :: t) hwall
    obtain ⟨s1, s2, s3, s4⟩ := natToDigits_spec (digitsToNat (c :: t))
    have hlen_le : (natToDigits (digitsToNat (c :: t))).length ≤
        t.length + 1 := by
      apply natToDigits_length_le _ _ (by omega)
      simpa using hhigh
    have hlen_ge : t.length + 1 ≤
        (natToDigits (digitsToNat (c :: t))).length := by
      by_contra hlt
      push_neg at hlt
      have hv := digitsToNat_lt (natToDigits (digitsToNat (c :: t))) s1
      rw [s2] at hv
      have hple : (10 : Nat) ^ (natToDigits (digitsToNat (c :: t))).length ≤
          10 ^ t.length := by
        apply Nat.pow_le_pow_right
        · omega
        · omega
      omega
    exact digits_inj _ _ s1 hwall
      (by simp only [List.length_cons]; omega) (by rw [s2])

/-- Helper: takeWhile and dropWhile pass over a prefix that satisfies the
predicate everywhere. -/
theorem takeWhile_dropWhile_append (p : Char → Bool) :
    ∀ (w r : List Char), (∀ c ∈ w, p c = true) →
      ((w ++ r).takeWhile p = w ++ r.takeWhile p ∧
        (w ++ r).dropWhile p = r.dropWhile p) := by
  intro w
  induction w with
  | nil => intro r _; simp
  | cons c t ih =>
    intro r hw
    have hc : p c = true := hw c (by simp)
    have ht := ih r (fun x hx => hw x (by simp [hx]))
    simp only [List.cons_append, List.takeWhile_cons, List.dropWhile_cons,
      hc, ht.1, ht.2]
    simp

/-- Helper: every digit character differs from the dot. -/
theorem digits_no_dot (l : List Char) (h : isDigits l = true) :
    ∀ c ∈ l, (decide (c ≠ '.')) = true := by
  intro c hc
  simp only [isDigits, List.all_eq_true] at h
  have := (digit_facts c (h c hc)).2.2.1
  simpa using this

/-- Helper: splitDecimal on a digits-dot-digits string and on plain digits. -/
theorem splitDecimal_eval (w f : List Char) (hw : isDigits w = true)
    (hf : isDigits f = true) :
    splitDecimal (w ++ '.' :: f) = (w, some f) ∧
      splitDecimal w = (w, none) := by
  have hwp := digits_no_dot w hw
  have hfp := digits_no_dot f hf
  have htw := takeWhile_dropWhile_append (fun c => decide (c ≠ '.'))
    w ('.' :: f) hwp
  have htf := takeWhile_dropWhile_append (fun c => decide (c ≠ '.'))
    f [] hfp
  constructor
  · unfold splitDecimal
    rw [htw.1, htw.2]
    have e1 : ('.' :: f).takeWhile (fun c => decide (c ≠ '.')) = [] := by
      simp [List.takeWhile_cons]
    have e2 : ('.' :: f).dropWhile (fun c => decide (c ≠ '.')) = '.' :: f := by
      simp [List.dropWhile_cons]
    have e3 : f.takeWhile (fun c => decide (c ≠ '.')) = f := by
      simpa using htf.1
    rw [e1, e2]
    rw [List.append_nil]
    show (w, some (f.takeWhile (fun c => decide (c ≠ '.')))) = (w, some f)
    rw [e3]
  · unfold splitDecimal
    have h1 : w.takeWhile (fun c => decide (c ≠ '.')) = w := by
      have := htw.1
      have h2 := takeWhile_dropWhile_append (fun c => decide (c ≠ '.'))
        w [] hwp
      simpa using h2.1
    have h3 : w.dropWhile (fun c => decide (c ≠ '.')) = [] := by
      have h2 := takeWhile_dropWhile_append (fun c => decide (c ≠ '.'))
        w [] hwp
      simpa using h2.2
    rw [h1, h3]

/-- Helper: dropWhile skips a satisfying replicate prefix. -/
theorem dropWhile_replicate (p : Char → Bool) (c : Char) (hp : p c = true) :
    ∀ (k : Nat) (r : List Char),
      (List.replicate k c ++ r).dropWhile p = r.dropWhile p := by
  intro k
  induction k with
  | zero => intro r; simp
  | succ k ih =>
    intro r
    simp only [List.replicate_succ, List.cons_append, List.dropWhile_cons,
      hp]
    simpa using ih r

/-- Helper: trailing zeros appended to a fraction strip away. -/
theorem strip_append_zeros (f : List Char) (k : Nat) :
    stripTrailingZeros (f ++ List.replicate k '0') = stripTrailingZeros f := by
  unfold stripTrailingZeros
  rw [List.reverse_append, List.reverse_replicate]
  rw [dropWhile_replicate (fun c => decide (c = '0')) '0' (by decide)]

/-- Helper: an all-zero fraction strips to nothing. -/
theorem strip_replicate_zeros (k : Nat) :
    stripTrailingZeros (List.replicate k '0') = [] := by
  have h := strip_append_zeros [] k
  rw [List.nil_append] at h
  rw [h]
  rfl

/-- Helper: a replicate of zeros is a digit string of value zero. -/
theorem replicate_zero_spec (k : Nat) :
    isDigits (List.replicate k '0') = true ∧
      digitsToNat (List.replicate k '0') = 0 := by
  induction k with
  | zero => exact ⟨by decide, by decide⟩
  | succ k ih =>
    constructor
    · simp only [List.replicate_succ, isDigits, List.all_cons,
        Bool.and_eq_true]
      exact ⟨by decide, ih.1⟩
    · rw [List.replicate_succ, digitsToNat_cons, ih.2]
      simp [digitVal]

/-- Helper: scaleFromDecimals applied to the value of a canonical whole part
concatenated with a length-d digit fraction reassembles the two parts,
stripping trailing fractional zeros and omitting the dot for a whole result. -/
theorem scaleFromDecimals_core (w padded : List Char) (d : Nat)
    (hw : isDigits w = true) (hwne : w ≠ [])
    (hcanon : w.head? = some '0' → w = ['0'])
    (hp : isDigits padded = true) (hlenp : padded.length = d) :
    scaleFromDecimals (digitsToNat (w ++ padded)) d =
      (if stripTrailingZeros padded = [] then w
        else w ++ '.' :: stripTrailingZeros padded) := by
  by_cases h0 : w = ['0']
  · subst h0
    have hz : digitsToNat ['0'] = 0 := by decide
    have hN : digitsToNat (['0'] ++ padded) = digitsToNat padded := by
      rw [digitsToNat_append, hz]
      ring
    rw [hN]
    have hFlt : digitsToNat padded < 10 ^ d := by
      have := digitsToNat_lt padded hp
      rwa [hlenp] at this
    obtain ⟨s1, s2, s3, s4⟩ := natToDigits_spec (digitsToNat padded)
    have hstr : padStartChars (d + 1) '0' (natToDigits (digitsToNat padded)) =
        '0' :: padded := by
      have hlenle : (natToDigits (digitsToNat padded)).length ≤ d + 1 := by
        apply natToDigits_length_le _ _ (by omega)
        exact lt_of_lt_of_le hFlt
          (Nat.pow_le_pow_right (by omega) (by omega))
      apply digits_inj
      · simp only [padStartChars, isDigits, List.all_append,
          Bool.and_eq_true]
        exact ⟨(replicate_zero_spec _).1, s1⟩
      · simp only [isDigits, List.all_cons, Bool.and_eq_true]
        exact ⟨by decide, hp⟩
      · simp only [padStartChars, List.length_append, List.length_replicate,
          List.length_cons, hlenp]
        omega
      · show digitsToNat (List.replicate _ '0' ++ _) = _
        rw [digitsToNat_append, (replicate_zero_spec _).2, s2,
          digitsToNat_cons]
        have hv0 : digitVal '0' = 0 := by decide
        rw [hv0, hlenp]
        ring
    simp only [scaleFromDecimals]
    rw [hstr]
    simp only [List.length_cons, hlenp]
    have hins : d + 1 - d = 1 := by omega
    rw [hins]
    simp only [List.take_succ_cons, List.take_zero, List.drop_succ_cons,
      List.drop_zero]
    by_cases hs : stripTrailingZeros padded = [] <;> simp [hs]
  · obtain ⟨c, t, rfl⟩ : ∃ c t, w = c :: t := by
      cases w with
      | nil => exact absurd rfl hwne
      | cons c t => exact ⟨c, t, rfl⟩
    have hc0 : c ≠ '0' := by
      intro h
      exact h0 (hcanon (by simp [h]))
    have hwp : isDigits ((c :: t) ++ padded) = true := by
      simp only [isDigits, List.all_append, Bool.and_eq_true]
      exact ⟨hw, hp⟩
    have hndr : natToDigits (digitsToNat ((c :: t) ++ padded)) =
        (c :: t) ++ padded := by
      apply natToDigits_roundtrip _ hwp (by simp)
      intro hh
      simp only [List.cons_append, List.head?_cons, Option.some.injEq] at hh
      exact (hc0 hh).elim
    have hlen : ((c :: t) ++ padded).length = (t.length + 1) + d := by
      simp [hlenp]
      omega
    have hpad : padStartChars (d + 1) '0' ((c :: t) ++ padded) =
        (c :: t) ++ padded := by
      unfold padStartChars
      rw [hlen]
      have hz : (d + 1) - ((t.length + 1) + d) = 0 := by omega
      rw [hz]
      simp
    simp only [scaleFromDecimals]
    rw [hndr, hpad, hlen]
    have hins : (t.length + 1) + d - d = (c :: t).length := by
      simp only [List.length_cons]
      omega
    rw [hins]
    rw [List.take_left, List.drop_left]
    have hwne2 : ¬(c :: t = ([] : List Char)) := by simp
    by_cases hs : stripTrailingZeros padded = [] <;> simp [hs, hwne2]

/-- C9 counterexample: the round trip is lossy when the fraction has more
digits than the decimal count (truncation) and when the whole part has
leading zeros (renormalization), so it does not reproduce every non-negative
decimal string. -/
theorem scale_roundtrip_counterexample :
    scaleFromDecimals (scaleToDecimals ("0.12".data) 1) 1 = "0.1".data ∧
      "0.1".data ≠ "0.12".data ∧
      stripTrailingZeros "12".data = "12".data ∧
      scaleFromDecimals (scaleToDecimals ("007".data) 0) 0 = "7".data ∧
      "7".data ≠ "007".data := by
  refine ⟨by decide, by decide, by decide, by decide, by decide⟩

/-- C9 (amended): for decimal counts d up to 18 and inputs in canonical form
(digit-only whole part without superfluous leading zeros, fractional part of
at most d digits), scaleFromDecimals after scaleToDecimals reproduces the
input with trailing fractional zeros stripped, emitting no decimal point
when the fraction strips away entirely; a fraction-free input round-trips to
itself. -/
theorem scale_roundtrip (w f : List Char) (d : Nat) (_hd : d ≤ 18)
    (hw : isDigits w = true) (hf : isDigits f = true) (hwne : w ≠ [])
    (hcanon : w.head? = some '0' → w = ['0']) (hflen : f.length ≤ d) :
    scaleFromDecimals (scaleToDecimals (w ++ '.' :: f) d) d =
      (if stripTrailingZeros f = [] then w
        else w ++ '.' :: stripTrailingZeros f) ∧
      scaleFromDecimals (scaleToDecimals w d) d = w := by
  constructor
  · have hsplit := (splitDecimal_eval w f hw hf).1
    have hlenpe : (f ++ List.replicate (d - f.length) '0').length = d := by
      simp only [List.length_append, List.length_replicate]
      omega
    have htake : (padEndChars d '0' f).take d =
        f ++ List.replicate (d - f.length) '0' := by
      show (f ++ List.replicate (d - f.length) '0').take d = _
      exact List.take_of_length_le (le_of_eq hlenpe)
    have hstd : scaleToDecimals (w ++ '.' :: f) d =
        digitsToNat (w ++ (f ++ List.replicate (d - f.length) '0')) := by
      simp only [scaleToDecimals, hsplit, Option.getD_some]
      rw [htake]
    rw [hstd]
    have hpd : isDigits (f ++ List.replicate (d - f.length) '0') = true := by
      simp only [isDigits, List.all_append, Bool.and_eq_true]
      exact ⟨hf, (replicate_zero_spec _).1⟩
    rw [scaleFromDecimals_core w _ d hw hwne hcanon hpd hlenpe]
    rw [strip_append_zeros]
  · have hsplit := (splitDecimal_eval w f hw hf).2
    have hlenpe : (List.replicate d '0' : List Char).length = d := by
      simp
    have htake : (padEndChars d '0' ([] : List Char)).take d =
        List.replicate d '0' := by
      show (([] : List Char) ++ List.replicate (d - 0) '0').take d = _
      rw [List.nil_append]
      have hd0 : d - 0 = d := by omega
      rw [hd0]
      exact List.take_of_length_le (le_of_eq hlenpe)
    have hstd : scaleToDecimals w d =
        digitsToNat (w ++ List.replicate d '0') := by
      simp only [scaleToDecimals, hsplit, Option.getD_none]
      rw [htake]
    rw [hstd]
    rw [scaleFromDecimals_core w _ d hw hwne hcanon
      (replicate_zero_spec d).1 hlenpe]
    rw [strip_replicate_zeros]
    simp

/-- Witness for C9: the canonical input 12.50 with three decimals
round-trips to 12.5. -/
theorem scale_roundtrip_witness :
    (isDigits "12".data = true ∧ isDigits "50".data = true ∧
        ("50".data : List Char).length ≤ 3) ∧
      (scaleFromDecimals (scaleToDecimals ("12".data ++ '.' :: "50".data) 3)
          3 =
        (if stripTrailingZeros "50".data = [] then "12".data
          else "12".data ++ '.' :: stripTrailingZeros "50".data) ∧
        scaleFromDecimals (scaleToDecimals ("12".data) 3) 3 = "12".data) :=
  ⟨⟨by decide, by decide, by decide⟩,
    scale_roundtrip ("12".data) ("50".data) 3 (by decide) (by decide)
      (by decide) (by decide) (by decide) (by decide)⟩
